import Mathlib

/-
  Verification of the trajectory segmentation and landing-runway attribution
  pipeline of the Engage2Hackathon repository (src/tools_filter.py,
  src/FAP_positions.py, src/threshold_positions.py).

  Modelling conventions of the shallow embedding:
  * A pandas row is a `Row`; nullable latitude/longitude columns are
    `Option ℚ` (`none` models a null/NaN cell).  Timestamps are integer
    milliseconds, altitudes are rationals.
  * A pandas label index is modelled by tagging each row of a group with its
    position (`enumIdx`); `df.loc` is `locRow`, `index.get_loc` is `findIdxQ`.
  * `haversine` and the two bearing functions of the source are
    floating-point transcendental functions; they enter every theorem as
    abstract parameters `hav, bear : ℚ → ℚ → ℚ → ℚ → ℚ`, so each theorem
    holds for every distance/bearing function, in particular for the real
    haversine.  Concrete instantiations in witnesses use simple rational
    functions.
  * Exceptions raised by pandas (idxmin of an empty series, concat of an
    empty list, ...) are modelled by `Except.error` with the text of the
    corresponding Python error.
  * `float('inf')` in the "no match" sentinel of find_nearest_point is
    modelled by `none` in an `Option ℚ` distance field.
-/

namespace Engage

/-- Type of the abstract distance / bearing functions
(arguments: lat1 lon1 lat2 lon2, as in the source). -/
abbrev Q4 := ℚ → ℚ → ℚ → ℚ → ℚ

/-- A named reference point of the registries (FAP_positions.py /
threshold_positions.py); only latitude/longitude are consulted by the
matcher (altitude/height of a FAP are informational). -/
structure RefPt where
  latitude : ℚ
  longitude : ℚ
deriving DecidableEq, Repr

/-- One ADS-B position report (a dataframe row).  `lat?`/`lon?` are `none`
when the lat_deg / lon_deg cell is null. -/
structure Row where
  icao24 : String
  ts : Int
  lat? : Option ℚ
  lon? : Option ℚ
  altitude : ℚ
  trajectory : String
deriving DecidableEq, Repr

/-- Digit-string to number, used by the DMS conversion of FAP_positions.py. -/
def digitsToNat (cs : List Char) : Nat :=
  cs.foldl (fun n c => 10 * n + (c.toNat - 48)) 0

/-- RunwayFAP.dms_to_decimal of FAP_positions.py: six digit latitude or seven
digit longitude with trailing hemisphere letter, `deg + min/60 + sec/3600`,
negated for S/W. -/
def dms_to_decimal (s : String) : ℚ :=
  let cs := s.toList
  let direction := cs.getLastD 'N'
  let dms := cs.dropLast
  let dm :=
    if dms.length = 6 then
      ((digitsToNat (dms.take 2) : ℚ), (digitsToNat ((dms.drop 2).take 2) : ℚ),
        (digitsToNat (dms.drop 4) : ℚ))
    else
      ((digitsToNat (dms.take 3) : ℚ), (digitsToNat ((dms.drop 3).take 2) : ℚ),
        (digitsToNat (dms.drop 5) : ℚ))
  let dec : ℚ := dm.1 + dm.2.1 / 60 + dm.2.2 / 3600
  if direction = 'S' ∨ direction = 'W' then -dec else dec

/-- The FAP registry of FAP_positions.py (coordinates only; the altitude and
height attributes are never read by the matcher). -/
def FAP_position : List (String × RefPt) :=
  [("18R", ⟨dms_to_decimal "404619N", dms_to_decimal "0033434W"⟩),
   ("18L", ⟨dms_to_decimal "404226N", dms_to_decimal "0033337W"⟩),
   ("32L", ⟨dms_to_decimal "402252N", dms_to_decimal "0032815W"⟩),
   ("32R", ⟨dms_to_decimal "402100N", dms_to_decimal "0032440W"⟩)]

/-- The threshold registry of threshold_positions.py. -/
def threshold_position : List (String × RefPt) :=
  [("18R", ⟨40.530218500159428, -3.574838439918973⟩),
   ("32L", ⟨40.45647777995444, -3.547191670444303⟩),
   ("32R", ⟨40.470008330215407, -3.532580559771673⟩),
   ("18L", ⟨40.532622220224376, -3.55938056019154⟩)]

/-- Result dictionary of find_nearest_point.  `distance = none` models the
initial `float('inf')`; the remaining fields model the `None` initialisers. -/
structure Nearest where
  distance : Option ℚ
  runway : Option String
  point : Option Row
  base_lat : Option ℚ
  base_lon : Option ℚ
  index : Option Nat
  ts : Option Int
deriving DecidableEq, Repr

/-- The sentinel dictionary find_nearest_point starts from. -/
def emptyNearest : Nearest :=
  ⟨none, none, none, none, none, none, none⟩

/-- A report surviving `dropna(subset=['lat_deg','lon_deg'])`, keeping its
dataframe label `idx` and its (non-null) coordinates. -/
structure CleanRow where
  idx : Nat
  row : Row
  lat : ℚ
  lon : ℚ
deriving DecidableEq, Repr

/-- `df.dropna(subset=['lat_deg','lon_deg'])` on label-tagged rows. -/
def dropnaCoords (rows : List (Nat × Row)) : List CleanRow :=
  rows.filterMap fun p =>
    match p.2.lat?, p.2.lon? with
    | some a, some b => some ⟨p.1, p.2, a, b⟩
    | _, _ => none

/-- Label positions: a group dataframe is its row list tagged with positional
labels (the pandas index of a group, normalised to 0,1,2,...). -/
def enumFromIdx (n : Nat) : List Row → List (Nat × Row)
  | [] => []
  | r :: rs => (n, r) :: enumFromIdx (n + 1) rs

/-- Tag each row of a group with its positional label. -/
def enumIdx (rows : List Row) : List (Nat × Row) :=
  enumFromIdx 0 rows

/-- `Index.get_loc`: position of the first element satisfying the test. -/
def findIdxQ (p : α → Bool) : List α → Option Nat
  | [] => none
  | x :: xs => if p x then some 0 else (findIdxQ p xs).map (· + 1)

/-- `df.loc[label]` on a label-tagged row list. -/
def locRow (indexed : List (Nat × Row)) (label : Nat) : Option Row :=
  (indexed.find? fun p => p.1 == label).map Prod.snd

/-- Interior of `Series.idxmin`: scan keeping the first strict minimum. -/
def idxminAux (best : Nat × ℚ) : List (Nat × ℚ) → Nat × ℚ
  | [] => best
  | x :: xs => idxminAux (if x.2 < best.2 then x else best) xs

/-- `Series.idxmin` over (label, value) pairs: first occurrence of the
minimum value; pandas raises ValueError on an empty series. -/
def idxmin : List (Nat × ℚ) → Except String (Nat × ℚ)
  | [] => .error "attempt to get argmin of an empty sequence"
  | x :: xs => .ok (idxminAux x xs)

/-- `d < nearest['distance']` where the right side may be `float('inf')`. -/
def ltInf (d : ℚ) : Option ℚ → Bool
  | none => true
  | some d0 => decide (d < d0)

/-- `nearest['distance'] > t` where the left side may be `float('inf')`. -/
def gtInf (d0 : Option ℚ) (t : ℚ) : Bool :=
  match d0 with
  | none => true
  | some d => decide (t < d)

/-- Distance of a clean report to a reference point under the abstract
distance function (`haversine(row['lat_deg'], row['lon_deg'], point.latitude,
point.longitude)` in the source). -/
def distQ (hav : Q4) (c : CleanRow) (p : RefPt) : ℚ :=
  hav c.lat c.lon p.latitude p.longitude

/-- Body of the loop of find_nearest_point for one reference-point entry. -/
def fnpStep (hav : Q4) (df : List CleanRow) (nearest : Nearest)
    (entry : String × RefPt) : Except String Nearest :=
  let distances := df.map fun c => (c.idx, distQ hav c entry.2)
  match idxmin distances with
  | .error e => .error e
  | .ok m =>
    if ltInf m.2 nearest.distance then
      match df.find? fun c => c.idx == m.1 with
      | some c =>
          .ok { distance := some m.2, runway := some entry.1, point := some c.row,
                base_lat := some entry.2.latitude, base_lon := some entry.2.longitude,
                index := some m.1, ts := some c.row.ts }
      | none => .error "KeyError"
    else .ok nearest

/-- The loop of find_nearest_point over the reference-point mapping. -/
def fnpFold (hav : Q4) (df : List CleanRow) (n : Nearest) :
    List (String × RefPt) → Except String Nearest
  | [] => .ok n
  | e :: bs =>
    match fnpStep hav df n e with
    | .error er => .error er
    | .ok n2 => fnpFold hav df n2 bs

/-- find_nearest_point of tools_filter.py: drop rows with null coordinates,
then for every reference point take the report of minimum distance, keeping
the globally smallest (first strict improvement wins). -/
def find_nearest_point (hav : Q4) (baseline_position : List (String × RefPt))
    (rows : List (Nat × Row)) : Except String Nearest :=
  fnpFold hav (dropnaCoords rows) emptyNearest baseline_position

/-! ## identify_segments (SegmentBuilder) -/

/-- An annotated row of identify_segments: the original report together with
its time_gap (seconds) and segment id columns. -/
structure SegRow where
  row : Row
  time_gap : ℚ
  segment : Nat
deriving DecidableEq, Repr

/-- One row of the segment_summary table of identify_segments. -/
structure SegSummary where
  segment : Nat
  start_time : Int
  end_time : Int
  start_altitude : ℚ
  end_altitude : ℚ
  altitude_change : ℚ
  trajectory : String
deriving DecidableEq, Repr

/-- Stable insertion into a sorted list (used to model the timestamp sort). -/
def insertLe (le : α → α → Bool) (x : α) : List α → List α
  | [] => [x]
  | y :: ys => if le x y then x :: y :: ys else y :: insertLe le x ys

/-- Stable sort by a boolean comparison (sort_values of pandas). -/
def sortLe (le : α → α → Bool) : List α → List α
  | [] => []
  | x :: xs => insertLe le x (sortLe le xs)

/-- Timestamp order on rows. -/
def rowTsLe (a b : Row) : Bool := decide (a.ts ≤ b.ts)

/-- Timestamp order on label-tagged rows. -/
def pairTsLe (a b : Nat × Row) : Bool := decide (a.2.ts ≤ b.2.ts)

/-- `ts.diff().fillna(0) / 1000` for the tail of the sorted rows: each row is
paired with its gap in seconds to the previous timestamp `prev`. -/
def gapsFrom (prev : Int) : List Row → List (Row × ℚ)
  | [] => []
  | r :: rs => (r, ((r.ts - prev : Int) : ℚ) / 1000) :: gapsFrom r.ts rs

/-- Gap column of identify_segments: the first row has gap 0 (fillna). -/
def annotateGaps : List Row → List (Row × ℚ)
  | [] => []
  | r :: rs => (r, 0) :: gapsFrom r.ts rs

/-- `(time_gap > threshold).cumsum()`: running count of threshold crossings
becomes the segment id of each row. -/
def assignSegs (thr : ℚ) (acc : Nat) : List (Row × ℚ) → List SegRow
  | [] => []
  | rg :: rest =>
    let acc2 := if rg.2 > thr then acc + 1 else acc
    ⟨rg.1, rg.2, acc2⟩ :: assignSegs thr acc2 rest

/-- Maximal runs of equal segment id (groupby('segment') on the annotated
rows, whose segment ids are nondecreasing). -/
def segRuns : List SegRow → List (List SegRow)
  | [] => []
  | x :: xs =>
    match segRuns xs with
    | [] => [[x]]
    | [] :: rest => [x] :: rest
    | (y :: ys) :: rest =>
      if x.segment == y.segment then (x :: y :: ys) :: rest
      else [x] :: (y :: ys) :: rest

/-- The agg of identify_segments for one segment run `x :: xs`: first/last
timestamp and altitude, overall altitude change, np.where classification. -/
def summaryOf (x : SegRow) (xs : List SegRow) : SegSummary :=
  let lastR := xs.getLastD x
  let change := lastR.row.altitude - x.row.altitude
  { segment := x.segment,
    start_time := x.row.ts, end_time := lastR.row.ts,
    start_altitude := x.row.altitude, end_altitude := lastR.row.altitude,
    altitude_change := change,
    trajectory :=
      if change > 0 then "departing" else if change < 0 then "landing" else "level" }

/-- identify_segments of tools_filter.py for the report group of one aircraft
(the source loops this body over `df.groupby('icao24')`): sort by timestamp,
compute gaps, open a new segment when a gap exceeds the threshold (default
3600 s), and classify every segment by its net altitude change. -/
def identify_segments (thr : ℚ) (rows : List Row) : List SegRow × List SegSummary :=
  let sorted := sortLe rowTsLe rows
  let arows := assignSegs thr 0 (annotateGaps sorted)
  (arows, (segRuns arows).filterMap fun run =>
    match run with
    | [] => none
    | x :: xs => some (summaryOf x xs))

/-! ## identify_landing_runway (LandingAttributor) -/

/-- A (icao24, segment) group of the landing attribution loop. -/
structure Group where
  icao24 : String
  seg : Nat
  rows : List Row
deriving DecidableEq, Repr

/-- The per-group columns identify_landing_runway appends to the group
dataframe (each listed column is constant over the group's rows). -/
structure AugGroup where
  icao24 : String
  seg : Nat
  rows : List Row
  runway_fap : String
  runway_thr : String
  idx_fap : Nat
  idx_thr : Nat
  ts_fap : Int
  ts_thr : Int
  delta_time : ℚ
  distance_fap_to_thr : ℚ
  delta_time_fap_to_thr : ℚ
deriving DecidableEq, Repr

/-- The basic_info record (LandingMatch) of identify_landing_runway. -/
structure BasicInfo where
  icao24 : String
  runway_fap : String
  idx_fap : Nat
  idx_thr : Nat
  ts_fap : Int
  ts_thr : Int
  lat_deg_fap : ℚ
  lon_deg_fap : ℚ
  lat_deg_thr : ℚ
  lon_deg_thr : ℚ
  distance : ℚ
  delta_time : ℚ
  distance_fap_to_thr : ℚ
  delta_time_fap_to_thr : ℚ
  speed_fap : Option ℚ
  vertical_speed_fap : Option ℚ
  heading_fap : Option ℚ
deriving DecidableEq, Repr

/-- One output triple of the loop body: augmented group, basic_info record,
ILS sub-segment (label-tagged rows). -/
abbrev Trip := AugGroup × BasicInfo × List (Nat × Row)

/-- `scaling_factor = true_distance / distance_real if distance_real != 0
else 1` of identify_landing_runway. -/
def scalingOf (true_distance distance_real : ℚ) : ℚ :=
  if distance_real ≠ 0 then true_distance / distance_real else 1

/-- FAP-crossing kinematics of identify_landing_runway: sort the group by
timestamp, locate the matched FAP label, and derive speed, vertical speed
and heading from the immediately preceding report; all three are None when
the FAP report is first in time order or the time step is not positive.
(A null coordinate of the predecessor is read out with getD; such rows do
not occur in the cleaned pipeline input.) -/
def kinAt (hav bear : Q4) (g : Group) (idxF : Nat) (tsF : Int) (rF : Row)
    (latF lonF : ℚ) : Option ℚ × Option ℚ × Option ℚ :=
  let sorted := sortLe pairTsLe (enumIdx g.rows)
  match findIdxQ (fun q => q.1 == idxF) sorted with
  | none => (none, none, none)
  | some fp =>
    if fp = 0 then (none, none, none)
    else
      match sorted.get? (fp - 1) with
      | none => (none, none, none)
      | some prev =>
        let dt : ℚ := ((tsF - prev.2.ts : Int) : ℚ) / 1000
        if 0 < dt then
          (some (hav latF lonF (prev.2.lat?.getD 0) (prev.2.lon?.getD 0) / dt),
           some ((rF.altitude - prev.2.altitude) / dt),
           some (bear (prev.2.lat?.getD 0) (prev.2.lon?.getD 0) latF lonF))
        else (none, none, none)

/-- The ILS slice of a group: positional rows from the lower to the higher
of the two matched positions, endpoint included (`iloc[start:end+1]`). -/
def ilsSlice (g : Group) (pF pT : Nat) : List (Nat × Row) :=
  ((enumIdx g.rows).drop (min pF pT)).take (max pF pT + 1 - min pF pT)

/-- The accepted-branch computations of identify_landing_runway: delta time,
raw and true distance, scaling, FAP kinematics from the predecessor in time
order, and the ILS slice between the two matched positions. -/
def buildRecords (hav bear : Q4) (g : Group)
    (idxF : Nat) (tsF : Int) (rwyF : String) (blatF blonF : ℚ)
    (idxT : Nat) (tsT : Int) (rwyT : String) (blatT blonT : ℚ)
    (rF : Row) (latF lonF latT lonT : ℚ) (pF pT : Nat) : Trip :=
  let delta_time_real : ℚ := ((tsT - tsF : Int) : ℚ) / 1000
  let distance_real := hav latF lonF latT lonT
  let true_distance := hav blatF blonF blatT blonT
  let delta_time_scaled := delta_time_real * scalingOf true_distance distance_real
  let kin := kinAt hav bear g idxF tsF rF latF lonF
  let segment_ils := ilsSlice g pF pT
  ({ icao24 := g.icao24, seg := g.seg, rows := g.rows,
     runway_fap := rwyF, runway_thr := rwyT,
     idx_fap := idxF, idx_thr := idxT, ts_fap := tsF, ts_thr := tsT,
     delta_time := delta_time_real,
     distance_fap_to_thr := true_distance,
     delta_time_fap_to_thr := delta_time_scaled },
   { icao24 := g.icao24, runway_fap := rwyF,
     idx_fap := idxF, idx_thr := idxT, ts_fap := tsF, ts_thr := tsT,
     lat_deg_fap := latF, lon_deg_fap := lonF,
     lat_deg_thr := latT, lon_deg_thr := lonT,
     distance := distance_real, delta_time := delta_time_real,
     distance_fap_to_thr := true_distance,
     delta_time_fap_to_thr := delta_time_scaled,
     speed_fap := kin.1, vertical_speed_fap := kin.2.1, heading_fap := kin.2.2 },
   segment_ils)

/-- Destructuring of the two match dictionaries and the dataframe lookups of
the accepted branch.  The `.ok none` arm models the source's
`except: print(...); continue` around `index.get_loc` (unreachable here,
since matched labels always occur in the group); the `.error` arms model
lookups that pandas itself would never fail on in this pipeline. -/
def mkOutputs (hav bear : Q4) (g : Group) (nf nt : Nearest) :
    Except String (Option Trip) :=
  match nf.index, nf.ts, nf.runway, nf.base_lat, nf.base_lon,
        nt.index, nt.ts, nt.runway, nt.base_lat, nt.base_lon with
  | some idxF, some tsF, some rwyF, some blatF, some blonF,
    some idxT, some tsT, some rwyT, some blatT, some blonT =>
    match locRow (enumIdx g.rows) idxF, locRow (enumIdx g.rows) idxT with
    | some rF, some rT =>
      match rF.lat?, rF.lon?, rT.lat?, rT.lon? with
      | some latF, some lonF, some latT, some lonT =>
        match findIdxQ (fun p => p.1 == idxF) (enumIdx g.rows),
              findIdxQ (fun p => p.1 == idxT) (enumIdx g.rows) with
        | some pF, some pT =>
          .ok (some (buildRecords hav bear g idxF tsF rwyF blatF blonF
                      idxT tsT rwyT blatT blonT rF latF lonF latT lonT pF pT))
        | _, _ => .ok none
      | _, _, _, _ => .error "null coordinate on a matched row"
    | _, _ => .error "KeyError"
  | _, _, _, _, _, _, _, _, _, _ => .error "match dictionary field missing"

/-- Loop body of identify_landing_runway for one (icao24, segment) group:
match against both registries, reject on runway disagreement or either
distance above 700 m (`.ok none`), otherwise build the output records. -/
def processGroup (hav bear : Q4) (fapPos thrPos : List (String × RefPt))
    (g : Group) : Except String (Option Trip) :=
  match find_nearest_point hav fapPos (enumIdx g.rows) with
  | .error e => .error e
  | .ok nf =>
    match find_nearest_point hav thrPos (enumIdx g.rows) with
    | .error e => .error e
    | .ok nt =>
      if nf.runway ≠ nt.runway then .ok none
      else if gtInf nf.distance 700 then .ok none
      else if gtInf nt.distance 700 then .ok none
      else mkOutputs hav bear g nf nt

/-- `df[~df['trajectory'].isin(['departing','level'])]` followed by the
grouping: rows of excluded trajectory classes disappear, and a group whose
rows all disappear is not iterated by groupby. -/
def filterGroups (groups : List Group) : List Group :=
  (groups.map fun g =>
      { g with rows := g.rows.filter fun r =>
          !(r.trajectory == "departing" || r.trajectory == "level") }).filter
    fun g => !g.rows.isEmpty

/-- The loop of identify_landing_runway: exceptions abort, a rejected group
contributes nothing, an accepted group appends its output triple. -/
def runGroups (hav bear : Q4) (fapPos thrPos : List (String × RefPt)) :
    List Group → Except String (List Trip)
  | [] => .ok []
  | g :: gs =>
    match processGroup hav bear fapPos thrPos g with
    | .error e => .error e
    | .ok o =>
      match runGroups hav bear fapPos thrPos gs with
      | .error e => .error e
      | .ok rest =>
        .ok (match o with
             | none => rest
             | some t => t :: rest)

/-- identify_landing_runway of tools_filter.py over already-grouped input.
The final `pd.concat(results)` raises ValueError when every group was
rejected (the source guards the ILS concat against emptiness but not this
one); otherwise the three output tables are returned. -/
def identify_landing_runway (hav bear : Q4)
    (fapPos thrPos : List (String × RefPt)) (groups : List Group) :
    Except String (List AugGroup × List BasicInfo × List (List (Nat × Row))) :=
  match runGroups hav bear fapPos thrPos (filterGroups groups) with
  | .error e => .error e
  | .ok trips =>
    if trips.isEmpty then .error "No objects to concatenate"
    else .ok (trips.map (fun t => t.1), trips.map (fun t => t.2.1),
              trips.map (fun t => t.2.2))

/-! ## identify_landing_runway_backwards and find_last_no_turning_point -/

/-- `float(runway[:2]) * 10`: the nominal runway heading in degrees from the
first two characters of the runway label. -/
def rwyHeading (runway : String) : ℚ :=
  ((digitsToNat (runway.toList.take 2) : ℚ)) * 10

/-- The `within_range` column of find_last_no_turning_point: the bearing of
the row toward the matched threshold report lies within plus/minus 10 degrees
of the nominal heading.  A row with a null coordinate gets `false` (NaN
comparisons are false in pandas). -/
def withinRange (bear : Q4) (hdg : ℚ) (thrPt : Row) (r : Row) : Bool :=
  match r.lat?, r.lon?, thrPt.lat?, thrPt.lon? with
  | some la, some lo, some ta, some tb =>
      decide (hdg - 10 ≤ bear la lo ta tb) && decide (bear la lo ta tb ≤ hdg + 10)
  | _, _, _, _ => false

/-- find_last_no_turning_point of tools_filter.py.  Note
`within_range.unique()[0]` inspects only the FIRST row's flag: the segment is
rejected (None) whenever the first report is out of range, regardless of the
later reports.  Otherwise the last in-range report is selected, with
distance 0.  The source raises on an empty group (`unique()[0]` of an empty
column) and on a None runway. -/
def find_last_no_turning_point (bear : Q4) (rows : List (Nat × Row))
    (nearest_thr : Nearest) : Except String (Option Nearest) :=
  match nearest_thr.runway, nearest_thr.point with
  | some runway, some thrPt =>
    match rows with
    | [] => .error "index 0 is out of bounds"
    | r0 :: _ =>
      if !withinRange bear (rwyHeading runway) thrPt r0.2 then .ok none
      else
        match (rows.filter fun p =>
            withinRange bear (rwyHeading runway) thrPt p.2).getLast? with
        | some lastP =>
          .ok (some { distance := some 0, runway := some runway, point := some lastP.2,
                      base_lat := none, base_lon := none,
                      index := some lastP.1, ts := some lastP.2.ts })
        | none => .error "IndexError"
  | _, _ => .error "TypeError"

/-- The per-group columns identify_landing_runway_backwards appends (no
corrected distance/time columns in this variant). -/
structure AugGroupB where
  icao24 : String
  seg : Nat
  rows : List Row
  runway_fap : String
  runway_thr : String
  idx_fap : Nat
  idx_thr : Nat
  ts_fap : Int
  ts_thr : Int
  delta_time : ℚ
deriving DecidableEq, Repr

/-- The basic_info record of the backwards variant: fewer fields than the
primary one (no raw distance, no corrected time, no kinematics), and
`distance_fap_to_thr` holds the RAW distance between the two matched
reports. -/
structure BasicInfoB where
  icao24 : String
  runway_fap : String
  idx_fap : Nat
  idx_thr : Nat
  ts_fap : Int
  ts_thr : Int
  delta_time : ℚ
  lat_deg_fap : ℚ
  lon_deg_fap : ℚ
  lat_deg_thr : ℚ
  lon_deg_thr : ℚ
  distance_fap_to_thr : ℚ
deriving DecidableEq, Repr

/-- Output triple of the backwards loop body. -/
abbrev TripB := AugGroupB × BasicInfoB × List (Nat × Row)

/-- Record construction of the accepted branch of the backwards variant. -/
def buildRecordsB (hav : Q4) (g : Group)
    (idxF : Nat) (tsF : Int) (rwyF : String)
    (idxT : Nat) (tsT : Int) (rwyT : String)
    (latF lonF latT lonT : ℚ) (pF pT : Nat) : TripB :=
  let delta_time : ℚ := ((tsT - tsF : Int) : ℚ) / 1000
  let distance := hav latF lonF latT lonT
  let segment_ils := ilsSlice g pF pT
  ({ icao24 := g.icao24, seg := g.seg, rows := g.rows,
     runway_fap := rwyF, runway_thr := rwyT,
     idx_fap := idxF, idx_thr := idxT, ts_fap := tsF, ts_thr := tsT,
     delta_time := delta_time },
   { icao24 := g.icao24, runway_fap := rwyF,
     idx_fap := idxF, idx_thr := idxT, ts_fap := tsF, ts_thr := tsT,
     delta_time := delta_time,
     lat_deg_fap := latF, lon_deg_fap := lonF,
     lat_deg_thr := latT, lon_deg_thr := lonT,
     distance_fap_to_thr := distance },
   segment_ils)

/-- Destructuring and lookups of the accepted branch of the backwards
variant (same conventions as mkOutputs). -/
def mkOutputsB (hav : Q4) (g : Group) (nf nt : Nearest) :
    Except String (Option TripB) :=
  match nf.index, nf.ts, nf.runway, nt.index, nt.ts, nt.runway with
  | some idxF, some tsF, some rwyF, some idxT, some tsT, some rwyT =>
    match locRow (enumIdx g.rows) idxF, locRow (enumIdx g.rows) idxT with
    | some rF, some rT =>
      match rF.lat?, rF.lon?, rT.lat?, rT.lon? with
      | some latF, some lonF, some latT, some lonT =>
        match findIdxQ (fun p => p.1 == idxF) (enumIdx g.rows),
              findIdxQ (fun p => p.1 == idxT) (enumIdx g.rows) with
        | some pF, some pT =>
          .ok (some (buildRecordsB hav g idxF tsF rwyF idxT tsT rwyT
                      latF lonF latT lonT pF pT))
        | _, _ => .ok none
      | _, _, _, _ => .error "null coordinate on a matched row"
    | _, _ => .error "KeyError"
  | _, _, _, _, _, _ => .error "match dictionary field missing"

/-- Loop body of identify_landing_runway_backwards: threshold by nearest
point, FAP by the bearing heuristic (None rejects with a heading
diagnostic), then the same three rejection checks as the primary loop; note
the FAP distance is the literal 0 stored by find_last_no_turning_point, so
its 700 m check can never reject. -/
def processGroupB (hav bear : Q4) (thrPos : List (String × RefPt))
    (g : Group) : Except String (Option TripB) :=
  match find_nearest_point hav thrPos (enumIdx g.rows) with
  | .error e => .error e
  | .ok nt =>
    match find_last_no_turning_point bear (enumIdx g.rows) nt with
    | .error e => .error e
    | .ok none => .ok none
    | .ok (some nf) =>
      if nf.runway ≠ nt.runway then .ok none
      else if gtInf nf.distance 700 then .ok none
      else if gtInf nt.distance 700 then .ok none
      else mkOutputsB hav g nf nt

/-- The loop of identify_landing_runway_backwards. -/
def runGroupsB (hav bear : Q4) (thrPos : List (String × RefPt)) :
    List Group → Except String (List TripB)
  | [] => .ok []
  | g :: gs =>
    match processGroupB hav bear thrPos g with
    | .error e => .error e
    | .ok o =>
      match runGroupsB hav bear thrPos gs with
      | .error e => .error e
      | .ok rest =>
        .ok (match o with
             | none => rest
             | some t => t :: rest)

/-- identify_landing_runway_backwards of tools_filter.py over grouped input
(same trajectory filter and final concatenation as the primary variant). -/
def identify_landing_runway_backwards (hav bear : Q4)
    (thrPos : List (String × RefPt)) (groups : List Group) :
    Except String (List AugGroupB × List BasicInfoB × List (List (Nat × Row))) :=
  match runGroupsB hav bear thrPos (filterGroups groups) with
  | .error e => .error e
  | .ok trips =>
    if trips.isEmpty then .error "No objects to concatenate"
    else .ok (trips.map (fun t => t.1), trips.map (fun t => t.2.1),
              trips.map (fun t => t.2.2))

/-! ## Specification predicates for find_nearest_point -/

/-- The dictionary find_nearest_point builds when reference-point entry `e`
improves the running minimum with clean report `c`. -/
def mkN (hav : Q4) (e : String × RefPt) (c : CleanRow) : Nearest :=
  { distance := some (distQ hav c e.2), runway := some e.1, point := some c.row,
    base_lat := some e.2.latitude, base_lon := some e.2.longitude,
    index := some c.idx, ts := some c.row.ts }

/-- Loop invariant of find_nearest_point: after the processed prefix either
nothing was matched (empty prefix) or the accumulator is the first entry of
the prefix realising the prefix-global minimum distance. -/
def InvN (hav : Q4) (df : List CleanRow) (processed : List (String × RefPt))
    (n : Nearest) : Prop :=
  (processed = [] ∧ n = emptyNearest) ∨
  ∃ P1 e P2 c, processed = P1 ++ e :: P2 ∧ c ∈ df ∧ n = mkN hav e c ∧
    (∀ q ∈ P1, ∀ c2 ∈ df, distQ hav c e.2 < distQ hav c2 q.2) ∧
    (∀ q ∈ processed, ∀ c2 ∈ df, distQ hav c e.2 ≤ distQ hav c2 q.2)

/-- Weak loop invariant: the runway and base coordinates of the accumulator
always come from one entry of the processed prefix. -/
def WInvN (processed : List (String × RefPt)) (n : Nearest) : Prop :=
  (n.runway = none ∧ n.base_lat = none ∧ n.base_lon = none) ∨
  ∃ e, e ∈ processed ∧ n.runway = some e.1 ∧
    n.base_lat = some e.2.latitude ∧ n.base_lon = some e.2.longitude

/-! ## Concrete instances used by witnesses and counterexamples -/

/-- A concrete symmetric distance function (squared difference). -/
def hav0 : Q4 := fun la lo lb lo2 => (la - lb) * (la - lb) + (lo - lo2) * (lo - lo2)

/-- A concrete bearing function (longitude times 100). -/
def bear0 : Q4 := fun _ lo _ _ => lo * 100

/-- Toy FAP registry with a single runway. -/
def fap0 : List (String × RefPt) := [("32L", ⟨0, 0⟩)]

/-- Toy threshold registry with a single runway. -/
def thr0 : List (String × RefPt) := [("32L", ⟨10, 0⟩)]

/-- Landing report sitting exactly on the toy FAP, with the LATER
timestamp. -/
def rowF : Row := ⟨"a", 2000, some 0, some 0, 3000, "landing"⟩

/-- Landing report sitting exactly on the toy threshold, with the EARLIER
timestamp. -/
def rowT : Row := ⟨"a", 1000, some 10, some 0, 100, "landing"⟩

/-- A landing group whose threshold passage precedes its FAP passage. -/
def g0 : Group := ⟨"a", 0, [rowF, rowT]⟩

/-- Expected augmented-group record of processing g0. -/
def augGood : AugGroup :=
  ⟨"a", 0, [rowF, rowT], "32L", "32L", 0, 1, 2000, 1000, -1, 100, -1⟩

/-- Expected basic_info record of processing g0 (negative delta times). -/
def basicGood : BasicInfo :=
  ⟨"a", "32L", 0, 1, 2000, 1000, 0, 0, 10, 0, 100, -1, 100, -1,
   some 100, some 2900, some 0⟩

/-- Expected ILS slice of processing g0. -/
def ilsGood : List (Nat × Row) := [(0, rowF), (1, rowT)]

/-- Registries whose nearest matches disagree on the runway for gBad. -/
def fapC : List (String × RefPt) := [("18L", ⟨0, 0⟩), ("32R", ⟨50, 50⟩)]

/-- Threshold registry paired with fapC. -/
def thrC : List (String × RefPt) := [("18L", ⟨100, 100⟩), ("32R", ⟨10, 10⟩)]

/-- The single report of the geometrically rejected group. -/
def rowBad : Row := ⟨"b", 0, some 0, some 0, 500, "landing"⟩

/-- A single landing group whose FAP match is runway 18L but whose threshold
match is runway 32R: geometrically rejected. -/
def gBad : Group := ⟨"b", 0, [rowBad]⟩

/-- FAP match dictionary of gBad against fapC. -/
def nfBad : Nearest :=
  ⟨some 0, some "18L", some rowBad, some 0, some 0, some 0, some 0⟩

/-- Threshold match dictionary of gBad against thrC. -/
def ntBad : Nearest :=
  ⟨some 200, some "32R", some rowBad, some 10, some 10, some 0, some 0⟩

/-- A report with a null longitude (excluded by dropna). -/
def rowNull : Row := ⟨"e", 0, some 1, none, 0, "landing"⟩

/-- Matched threshold report for the find_last_no_turning_point
counterexample. -/
def thrRow6 : Row := ⟨"c", 500, some 10, some 3.2, 50, "landing"⟩

/-- First report of the counterexample group: bearing 0, out of range of
heading 320. -/
def row6a : Row := ⟨"c", 1000, some 0, some 0, 400, "landing"⟩

/-- Second report of the counterexample group: bearing 320, in range. -/
def row6b : Row := ⟨"c", 2000, some 10, some 3.2, 300, "landing"⟩

/-- Threshold match dictionary handed to find_last_no_turning_point in the
counterexample. -/
def nthr6 : Nearest := ⟨some 0, some "32L", some thrRow6, some 10, some 0, some 0, some 500⟩

/-- Backwards-variant witness rows: both reports bear 320 toward the
threshold report. -/
def rB0 : Row := ⟨"d", 1000, some 10, some 3.2, 500, "landing"⟩

/-- Second backwards-variant witness row (later, so it becomes the FAP). -/
def rB1 : Row := ⟨"d", 2000, some 10, some 3.2, 400, "landing"⟩

/-- Backwards-variant witness group. -/
def gB : Group := ⟨"d", 0, [rB0, rB1]⟩

/-- Threshold registry for the backwards-variant witness. -/
def thrB : List (String × RefPt) := [("32L", ⟨10, 0⟩)]

/-- Expected augmented-group record of the backwards run on gB. -/
def augB : AugGroupB := ⟨"d", 0, [rB0, rB1], "32L", "32L", 1, 0, 2000, 1000, -1⟩

/-- Expected basic_info record of the backwards run on gB. -/
def basicB : BasicInfoB := ⟨"d", "32L", 1, 0, 2000, 1000, -1, 10, 3.2, 10, 3.2, 0⟩

/-- Expected ILS slice of the backwards run on gB. -/
def ilsB : List (Nat × Row) := [(0, rB0), (1, rB1)]

/-- First report of the segment-gap counterexample group (timestamp 0). -/
def row4a : Row := ⟨"f", 0, some 0, some 0, 1000, "landing"⟩

/-- Second report of the segment-gap counterexample group: 4,000,000 ms
(4000 s) later, past the 3600 s threshold, so it opens a new segment whose
only report keeps the 4000 s gap. -/
def row4b : Row := ⟨"f", 4000000, some 0, some 0, 500, "landing"⟩

/-! ## Generic lemmas about the embedding's list operations -/

theorem enumFromIdx_mem {l : List Row} :
    ∀ {n : Nat} {p : Nat × Row}, p ∈ enumFromIdx n l →
      ∃ k, k < l.length ∧ p.1 = n + k ∧ l.get? k = some p.2 := by
  induction l with
  | nil => intro n p h; simp [enumFromIdx] at h
  | cons r rs ih =>
    intro n p h
    simp only [enumFromIdx, List.mem_cons] at h
    rcases h with h | h
    · exact ⟨0, by simp, by simp [h], by simp [h]⟩
    · obtain ⟨k, hk, h1, h2⟩ := ih h
      exact ⟨k + 1, by simpa using hk, by omega, by simpa using h2⟩

theorem enumFromIdx_get? {l : List Row} :
    ∀ {n k : Nat}, (enumFromIdx n l).get? k = (l.get? k).map fun r => (n + k, r) := by
  induction l with
  | nil => intro n k; simp [enumFromIdx]
  | cons r rs ih =>
    intro n k
    cases k with
    | zero => simp [enumFromIdx]
    | succ k =>
      simp only [enumFromIdx, List.get?_cons_succ, ih]
      cases rs.get? k with
      | none => simp
      | some r2 => simp; omega

theorem enumFromIdx_length {l : List Row} : ∀ {n : Nat}, (enumFromIdx n l).length = l.length := by
  induction l with
  | nil => intro n; rfl
  | cons r rs ih => intro n; simp [enumFromIdx, ih]

theorem enumIdx_get? {l : List Row} {k : Nat} :
    (enumIdx l).get? k = (l.get? k).map fun r => (k, r) := by
  simpa using enumFromIdx_get? (l := l) (n := 0) (k := k)

theorem enumIdx_length {l : List Row} : (enumIdx l).length = l.length :=
  enumFromIdx_length

theorem findIdxQ_enumFromIdx {l : List Row} :
    ∀ {n i : Nat}, i < l.length →
      findIdxQ (fun p => p.1 == n + i) (enumFromIdx n l) = some i := by
  induction l with
  | nil => intro n i h; simp at h
  | cons r rs ih =>
    intro n i h
    cases i with
    | zero => simp [enumFromIdx, findIdxQ]
    | succ i =>
      have hne : (n == n + (i + 1)) = false := by
        simp only [beq_eq_false_iff_ne, ne_eq]; omega
      have hstep : (fun p : Nat × Row => p.1 == n + (i + 1)) =
          fun p : Nat × Row => p.1 == (n + 1) + i := by
        funext p; congr 1; omega
      have hih := ih (n := n + 1) (i := i) (by simpa using h)
      simp only [enumFromIdx, findIdxQ, hne, Bool.false_eq_true, if_false, hstep, hih,
        Option.map_some']

theorem findIdxQ_enumIdx {l : List Row} {i : Nat} (h : i < l.length) :
    findIdxQ (fun p => p.1 == i) (enumIdx l) = some i := by
  simpa using findIdxQ_enumFromIdx (l := l) (n := 0) (i := i) h

theorem locRow_spec {rows : List Row} {i : Nat} {r : Row}
    (h : locRow (enumIdx rows) i = some r) :
    i < rows.length ∧ rows.get? i = some r := by
  unfold locRow at h
  obtain ⟨p, hp, hpr⟩ := Option.map_eq_some'.mp h
  have hmem := List.mem_of_find?_eq_some hp
  have hpi2 := List.find?_some hp
  simp only [beq_iff_eq] at hpi2
  obtain ⟨k, hk, h1, h2⟩ := enumFromIdx_mem hmem
  have : k = i := by omega
  subst this
  exact ⟨hk, by rw [h2, hpr]⟩

theorem find?_succeeds_of_mem {l : List α} {p : α → Bool} {x : α}
    (hx : x ∈ l) (hpx : p x = true) : ∃ y, l.find? p = some y := by
  have : (l.find? p).isSome := List.find?_isSome.mpr ⟨x, hx, hpx⟩
  exact Option.isSome_iff_exists.mp this

theorem findIdxQ_succeeds {l : List α} {p : α → Bool} {x : α}
    (hx : x ∈ l) (hpx : p x = true) : ∃ k, findIdxQ p l = some k := by
  induction l with
  | nil => simp at hx
  | cons y ys ih =>
    by_cases hy : p y
    · exact ⟨0, by simp [findIdxQ, hy]⟩
    · rcases List.mem_cons.mp hx with h | h
      · rw [h] at hpx; exact absurd hpx hy
      · obtain ⟨k, hk⟩ := ih h
        exact ⟨k + 1, by simp [findIdxQ, hy, hk]⟩

/-! ## Specification of idxmin -/

theorem idxminAux_spec (l : List (Nat × ℚ)) :
    ∀ best : Nat × ℚ,
      ∃ pre post, best :: l = pre ++ idxminAux best l :: post ∧
        (∀ y ∈ pre, (idxminAux best l).2 < y.2) ∧
        (∀ y ∈ post, (idxminAux best l).2 ≤ y.2) := by
  induction l with
  | nil =>
    intro best
    exact ⟨[], [], rfl, by simp, by simp⟩
  | cons x xs ih =>
    intro best
    by_cases hx : x.2 < best.2
    · have h2 : idxminAux best (x :: xs) = idxminAux x xs := by
        simp [idxminAux, hx]
      obtain ⟨pre, post, hdec, hpre, hpost⟩ := ih x
      have hrx : (idxminAux x xs).2 ≤ x.2 := by
        cases pre with
        | nil =>
          have hinj := List.cons.inj (by simpa using hdec)
          exact le_of_eq (by rw [← hinj.1])
        | cons p ps =>
          have hinj := List.cons.inj (by simpa using hdec)
          have hlt := hpre p (by simp)
          rw [← hinj.1] at hlt
          exact le_of_lt hlt
      refine ⟨best :: pre, post, ?_, ?_, by simpa [h2] using hpost⟩
      · rw [h2]; simpa using congrArg (List.cons best) hdec
      · intro y hy
        rcases List.mem_cons.mp hy with h | h
        · rw [h, h2]; exact lt_of_le_of_lt hrx hx
        · rw [h2]; exact hpre y h
    · have h2 : idxminAux best (x :: xs) = idxminAux best xs := by
        simp [idxminAux, hx]
      obtain ⟨pre, post, hdec, hpre, hpost⟩ := ih best
      cases pre with
      | nil =>
        have hinj := List.cons.inj (by simpa using hdec)
        refine ⟨[], x :: xs, ?_, by simp, ?_⟩
        · rw [h2, ← hinj.1]; rfl
        · intro y hy
          rcases List.mem_cons.mp hy with h | h
          · rw [h, h2, ← hinj.1]
            exact le_of_not_lt hx
          · rw [h2]
            exact hpost y (hinj.2 ▸ h)
      | cons p ps =>
        have hinj := List.cons.inj (by simpa using hdec)
        have hbp : best = p := hinj.1
        have hxs : xs = ps ++ idxminAux best xs :: post := hinj.2
        refine ⟨best :: x :: ps, post, ?_, ?_, by simpa [h2] using hpost⟩
        · rw [h2]
          simpa using congrArg (fun t => best :: x :: t) hxs
        · intro y hy
          have hrb : (idxminAux best xs).2 < best.2 := by
            have := hpre p (by simp)
            rw [← hbp] at this; exact this
          rcases List.mem_cons.mp hy with h | h
          · rw [h, h2]; exact hrb
          · rcases List.mem_cons.mp h with h3 | h3
            · rw [h3, h2]
              exact lt_of_lt_of_le hrb (le_of_not_lt hx)
            · rw [h2]; exact hpre y (by simp [h3])

theorem idxmin_spec {l : List (Nat × ℚ)} (h : l ≠ []) :
    ∃ m pre post, idxmin l = .ok m ∧ l = pre ++ m :: post ∧
      (∀ y ∈ pre, m.2 < y.2) ∧ (∀ y ∈ post, m.2 ≤ y.2) := by
  cases l with
  | nil => exact absurd rfl h
  | cons x xs =>
    obtain ⟨pre, post, hdec, hpre, hpost⟩ := idxminAux_spec xs x
    exact ⟨idxminAux x xs, pre, post, rfl, hdec, hpre, hpost⟩

theorem idxmin_ok {l : List (Nat × ℚ)} (h : l ≠ []) :
    ∃ m, idxmin l = .ok m ∧ m ∈ l ∧ ∀ y ∈ l, m.2 ≤ y.2 := by
  obtain ⟨m, pre, post, hok, hdec, hpre, hpost⟩ := idxmin_spec h
  refine ⟨m, hok, ?_, ?_⟩
  · rw [hdec]; simp
  · intro y hy
    rw [hdec] at hy
    rcases List.mem_append.mp hy with h1 | h1
    · exact le_of_lt (hpre y h1)
    · rcases List.mem_cons.mp h1 with h2 | h2
      · rw [h2]
      · exact hpost y h2

/-! ## Invariants of find_nearest_point -/

theorem dropnaCoords_idx_sublist (rows : List (Nat × Row)) :
    ((dropnaCoords rows).map CleanRow.idx).Sublist (rows.map Prod.fst) := by
  induction rows with
  | nil => simp [dropnaCoords]
  | cons p ps ih =>
    simp only [dropnaCoords, List.filterMap_cons, List.map_cons]
    cases hl : p.2.lat? with
    | none => exact List.Sublist.cons p.1 ih
    | some a =>
      cases ho : p.2.lon? with
      | none => exact List.Sublist.cons p.1 ih
      | some b =>
        simp only [List.map_cons]
        exact List.Sublist.cons₂ p.1 ih

theorem dropnaCoords_nodup {rows : List (Nat × Row)}
    (h : (rows.map Prod.fst).Nodup) : ((dropnaCoords rows).map CleanRow.idx).Nodup :=
  List.Nodup.sublist (dropnaCoords_idx_sublist rows) h

theorem fnpStep_inv {hav : Q4} {df : List CleanRow} (hdf : df ≠ [])
    (hnd : (df.map CleanRow.idx).Nodup) {processed : List (String × RefPt)}
    {n : Nearest} (hInv : InvN hav df processed n) (e : String × RefPt) :
    ∃ n2, fnpStep hav df n e = .ok n2 ∧ InvN hav df (processed ++ [e]) n2 := by
  have hdist : (df.map fun c => (c.idx, distQ hav c e.2)) ≠ [] := by
    simpa using hdf
  obtain ⟨m, hmok, hmmem, hmle⟩ := idxmin_ok hdist
  obtain ⟨c0, hc0df, hc0m⟩ := List.mem_map.mp hmmem
  have hm1 : m.1 = c0.idx := by rw [← hc0m]
  have hm2 : m.2 = distQ hav c0 e.2 := by rw [← hc0m]
  obtain ⟨c1, hc1⟩ :=
    find?_succeeds_of_mem (l := df) (p := fun c => c.idx == m.1) hc0df (by simp [hm1])
  have hc1mem := List.mem_of_find?_eq_some hc1
  have hc1idx := List.find?_some hc1
  simp only [beq_iff_eq] at hc1idx
  have hc1c0 : c1 = c0 :=
    List.inj_on_of_nodup_map hnd hc1mem hc0df (by rw [hc1idx, hm1])
  subst hc1c0
  have hglobmin : ∀ c2 ∈ df, m.2 ≤ distQ hav c2 e.2 := by
    intro c2 hc2
    exact hmle (c2.idx, distQ hav c2 e.2) (List.mem_map.mpr ⟨c2, hc2, rfl⟩)
  by_cases hlt : ltInf m.2 n.distance = true
  · refine ⟨mkN hav e c1, ?_, ?_⟩
    · simp [fnpStep, hmok, hlt, hc1, mkN, ← hm1, ← hm2]
    · refine Or.inr ⟨processed, e, [], c1, by simp, hc0df, rfl, ?_, ?_⟩
      · intro q hq c2 hc2
        rcases hInv with ⟨hp, hn⟩ | ⟨P1, e1, P2, c, hdec, hcdf, hneq, hstrict, hglob⟩
        · rw [hp] at hq; simp at hq
        · have hnd2 : n.distance = some (distQ hav c e1.2) := by rw [hneq]; rfl
          rw [hnd2] at hlt
          simp only [ltInf, decide_eq_true_eq] at hlt
          have h1 : distQ hav c e1.2 ≤ distQ hav c2 q.2 := hglob q hq c2 hc2
          have h2 : distQ hav c1 e.2 = m.2 := hm2.symm
          rw [h2]
          exact lt_of_lt_of_le hlt h1
      · intro q hq c2 hc2
        rcases List.mem_append.mp hq with h1 | h1
        · rcases hInv with ⟨hp, hn⟩ | ⟨P1, e1, P2, c, hdec, hcdf, hneq, hstrict, hglob⟩
          · rw [hp] at h1; simp at h1
          · have hnd2 : n.distance = some (distQ hav c e1.2) := by rw [hneq]; rfl
            rw [hnd2] at hlt
            simp only [ltInf, decide_eq_true_eq] at hlt
            have hle := hglob q h1 c2 hc2
            rw [← hm2]
            exact le_of_lt (lt_of_lt_of_le hlt hle)
        · have hqe : q = e := by simpa using h1
          rw [hqe, ← hm2]
          exact hglobmin c2 hc2
  · have hltF : ltInf m.2 n.distance = false := by
      cases hv : ltInf m.2 n.distance
      · rfl
      · exact absurd hv hlt
    rcases hInv with ⟨hp, hn⟩ | ⟨P1, e1, P2, c, hdec, hcdf, hneq, hstrict, hglob⟩
    · rw [hn] at hltF
      simp [ltInf, emptyNearest] at hltF
    · have hnd2 : n.distance = some (distQ hav c e1.2) := by rw [hneq]; rfl
      have hge : distQ hav c e1.2 ≤ m.2 := by
        have hv := hltF
        rw [hnd2] at hv
        simp only [ltInf, decide_eq_false_iff_not, not_lt] at hv
        exact hv
      refine ⟨n, ?_, ?_⟩
      · simp [fnpStep, hmok, hltF]
      · refine Or.inr ⟨P1, e1, P2 ++ [e], c, by simp [hdec], hcdf, hneq, hstrict, ?_⟩
        intro q hq c2 hc2
        rcases List.mem_append.mp hq with h1 | h1
        · exact hglob q h1 c2 hc2
        · have hqe : q = e := by simpa using h1
          rw [hqe]
          exact le_trans hge (hglobmin c2 hc2)

theorem fnpFold_inv {hav : Q4} {df : List CleanRow} (hdf : df ≠ [])
    (hnd : (df.map CleanRow.idx).Nodup) :
    ∀ (baseline : List (String × RefPt)) {processed : List (String × RefPt)}
      {n : Nearest}, InvN hav df processed n →
      ∃ n2, fnpFold hav df n baseline = .ok n2 ∧
        InvN hav df (processed ++ baseline) n2 := by
  intro baseline
  induction baseline with
  | nil =>
    intro processed n hInv
    exact ⟨n, rfl, by simpa using hInv⟩
  | cons e bs ih =>
    intro processed n hInv
    obtain ⟨n2, hstep, hInv2⟩ := fnpStep_inv hdf hnd hInv e
    obtain ⟨n3, hfold, hInv3⟩ := ih hInv2
    refine ⟨n3, ?_, ?_⟩
    · simp only [fnpFold, hstep, hfold]
    · have : processed ++ [e] ++ bs = processed ++ e :: bs := by simp
      rw [← this]
      exact hInv3

theorem fnp_min {hav : Q4} {baseline : List (String × RefPt)}
    {rows : List (Nat × Row)} (hb : baseline ≠ [])
    (hnd : ((dropnaCoords rows).map CleanRow.idx).Nodup)
    (hdf : dropnaCoords rows ≠ []) :
    ∃ n P1 e P2 c, find_nearest_point hav baseline rows = .ok n ∧
      baseline = P1 ++ e :: P2 ∧ c ∈ dropnaCoords rows ∧ n = mkN hav e c ∧
      (∀ q ∈ P1, ∀ c2 ∈ dropnaCoords rows, distQ hav c e.2 < distQ hav c2 q.2) ∧
      (∀ q ∈ baseline, ∀ c2 ∈ dropnaCoords rows,
        distQ hav c e.2 ≤ distQ hav c2 q.2) := by
  obtain ⟨n2, hfold, hInv⟩ :=
    fnpFold_inv hdf hnd baseline
      (show InvN hav (dropnaCoords rows) [] emptyNearest from Or.inl ⟨rfl, rfl⟩)
  rcases hInv with ⟨hp, hn⟩ | ⟨P1, e, P2, c, hdec, hcdf, hneq, hstrict, hglob⟩
  · exact absurd (by simpa using hp) hb
  · exact ⟨n2, P1, e, P2, c, hfold, by simpa using hdec, hcdf, hneq,
      fun q hq c2 hc2 => hstrict q hq c2 hc2,
      fun q hq c2 hc2 => hglob q (by simpa using hq) c2 hc2⟩

/-! ## Weak invariant: runway and base coordinates come from the registry -/

theorem fnpStep_winv {hav : Q4} {df : List CleanRow} {processed : List (String × RefPt)}
    {n n2 : Nearest} {e : String × RefPt}
    (h : fnpStep hav df n e = .ok n2) (hw : WInvN processed n) :
    WInvN (processed ++ [e]) n2 := by
  simp only [fnpStep] at h
  split at h
  · simp at h
  · split at h
    · split at h
      · have hinj := Except.ok.inj h
        subst hinj
        exact Or.inr ⟨e, by simp, rfl, rfl, rfl⟩
      · simp at h
    · have hinj := Except.ok.inj h
      subst hinj
      rcases hw with h1 | ⟨e1, hmem, ha, hb2, hc⟩
      · exact Or.inl h1
      · exact Or.inr ⟨e1, List.mem_append_left _ hmem, ha, hb2, hc⟩

theorem fnpFold_winv {hav : Q4} {df : List CleanRow} :
    ∀ (baseline : List (String × RefPt)) {processed : List (String × RefPt)}
      {n n2 : Nearest}, fnpFold hav df n baseline = .ok n2 →
      WInvN processed n → WInvN (processed ++ baseline) n2 := by
  intro baseline
  induction baseline with
  | nil =>
    intro processed n n2 h hw
    simp only [fnpFold] at h
    cases h
    simpa using hw
  | cons e bs ih =>
    intro processed n n2 h hw
    simp only [fnpFold] at h
    split at h
    · simp at h
    · rename_i nmid hs
      have hw2 := fnpStep_winv hs hw
      have := ih h hw2
      simpa using this

theorem fnp_runway_base {hav : Q4} {baseline : List (String × RefPt)}
    {rows : List (Nat × Row)} {n : Nearest} {s : String}
    (h : find_nearest_point hav baseline rows = .ok n) (hr : n.runway = some s) :
    ∃ p, (s, p) ∈ baseline ∧ n.base_lat = some p.latitude ∧
      n.base_lon = some p.longitude := by
  have hw := fnpFold_winv baseline h
    (show WInvN [] emptyNearest from Or.inl ⟨rfl, rfl, rfl⟩)
  rcases hw with ⟨h1, h2, h3⟩ | ⟨e, hmem, ha, hb2, hc⟩
  · rw [hr] at h1; cases h1
  · rw [hr] at ha
    have : s = e.1 := by
      injection ha
    refine ⟨e.2, ?_, hb2, hc⟩
    rw [this]
    simpa using hmem

/-! ## Inversion of the landing-attribution loop body -/

theorem mkOutputs_ok_some {hav bear : Q4} {g : Group} {nf nt : Nearest} {t : Trip}
    (h : mkOutputs hav bear g nf nt = .ok (some t)) :
    ∃ idxF tsF rwyF blatF blonF idxT tsT rwyT blatT blonT rF rT latF lonF latT lonT,
      nf.index = some idxF ∧ nf.ts = some tsF ∧ nf.runway = some rwyF ∧
      nf.base_lat = some blatF ∧ nf.base_lon = some blonF ∧
      nt.index = some idxT ∧ nt.ts = some tsT ∧ nt.runway = some rwyT ∧
      nt.base_lat = some blatT ∧ nt.base_lon = some blonT ∧
      locRow (enumIdx g.rows) idxF = some rF ∧ locRow (enumIdx g.rows) idxT = some rT ∧
      rF.lat? = some latF ∧ rF.lon? = some lonF ∧
      rT.lat? = some latT ∧ rT.lon? = some lonT ∧
      t = buildRecords hav bear g idxF tsF rwyF blatF blonF idxT tsT rwyT blatT blonT
            rF latF lonF latT lonT idxF idxT := by
  unfold mkOutputs at h
  split at h
  · rename_i idxF tsF rwyF blatF blonF idxT tsT rwyT blatT blonT
      e1 e2 e3 e4 e5 e6 e7 e8 e9 e10
    split at h
    · rename_i rF rT hrF hrT
      split at h
      · rename_i latF lonF latT lonT hlatF hlonF hlatT hlonT
        split at h
        · rename_i pF pT hpF hpT
          have hltF := (locRow_spec hrF).1
          have hltT := (locRow_spec hrT).1
          have hpFe : pF = idxF := by
            have hq := findIdxQ_enumIdx (l := g.rows) (i := idxF) hltF
            rw [hq] at hpF
            exact (Option.some.inj hpF).symm
          have hpTe : pT = idxT := by
            have hq := findIdxQ_enumIdx (l := g.rows) (i := idxT) hltT
            rw [hq] at hpT
            exact (Option.some.inj hpT).symm
          have hinj := Option.some.inj (Except.ok.inj h)
          refine ⟨idxF, tsF, rwyF, blatF, blonF, idxT, tsT, rwyT, blatT, blonT,
            rF, rT, latF, lonF, latT, lonT, e1, e2, e3, e4, e5, e6, e7, e8, e9, e10,
            hrF, hrT, hlatF, hlonF, hlatT, hlonT, ?_⟩
          rw [← hinj, hpFe, hpTe]
        · simp at h
      · simp at h
    · simp at h
  · simp at h

theorem mkOutputs_not_none {hav bear : Q4} {g : Group} {nf nt : Nearest}
    (h : mkOutputs hav bear g nf nt = .ok none) : False := by
  unfold mkOutputs at h
  split at h
  · rename_i idxF tsF rwyF blatF blonF idxT tsT rwyT blatT blonT
      e1 e2 e3 e4 e5 e6 e7 e8 e9 e10
    split at h
    · rename_i rF rT hrF hrT
      split at h
      · rename_i latF lonF latT lonT hlatF hlonF hlatT hlonT
        split at h
        · simp at h
        · rename_i xa xb hno
          have hltF := (locRow_spec hrF).1
          have hltT := (locRow_spec hrT).1
          exact hno idxF idxT (findIdxQ_enumIdx hltF) (findIdxQ_enumIdx hltT)
      · simp at h
    · simp at h
  · simp at h

theorem processGroup_ok_some {hav bear : Q4} {fapPos thrPos : List (String × RefPt)}
    {g : Group} {t : Trip}
    (h : processGroup hav bear fapPos thrPos g = .ok (some t)) :
    ∃ nf nt, find_nearest_point hav fapPos (enumIdx g.rows) = .ok nf ∧
      find_nearest_point hav thrPos (enumIdx g.rows) = .ok nt ∧
      nf.runway = nt.runway ∧ gtInf nf.distance 700 = false ∧
      gtInf nt.distance 700 = false ∧ mkOutputs hav bear g nf nt = .ok (some t) := by
  unfold processGroup at h
  split at h
  · simp at h
  · rename_i nf hf
    split at h
    · simp at h
    · rename_i nt ht
      by_cases h1 : nf.runway ≠ nt.runway
      · rw [if_pos h1] at h; simp at h
      · rw [if_neg h1] at h
        by_cases h2 : gtInf nf.distance 700 = true
        · rw [if_pos h2] at h; simp at h
        · rw [if_neg h2] at h
          by_cases h3 : gtInf nt.distance 700 = true
          · rw [if_pos h3] at h; simp at h
          · rw [if_neg h3] at h
            exact ⟨nf, nt, hf, ht, not_not.mp h1, by simpa using h2, by simpa using h3, h⟩

theorem processGroup_ok_none {hav bear : Q4} {fapPos thrPos : List (String × RefPt)}
    {g : Group} (h : processGroup hav bear fapPos thrPos g = .ok none) :
    ∃ nf nt, find_nearest_point hav fapPos (enumIdx g.rows) = .ok nf ∧
      find_nearest_point hav thrPos (enumIdx g.rows) = .ok nt ∧
      (nf.runway ≠ nt.runway ∨ gtInf nf.distance 700 = true ∨
        gtInf nt.distance 700 = true) := by
  unfold processGroup at h
  split at h
  · simp at h
  · rename_i nf hf
    split at h
    · simp at h
    · rename_i nt ht
      by_cases h1 : nf.runway ≠ nt.runway
      · exact ⟨nf, nt, hf, ht, Or.inl h1⟩
      · rw [if_neg h1] at h
        by_cases h2 : gtInf nf.distance 700 = true
        · exact ⟨nf, nt, hf, ht, Or.inr (Or.inl h2)⟩
        · rw [if_neg h2] at h
          by_cases h3 : gtInf nt.distance 700 = true
          · exact ⟨nf, nt, hf, ht, Or.inr (Or.inr h3)⟩
          · rw [if_neg h3] at h
            exact absurd h (by intro hc; exact mkOutputs_not_none hc)

theorem processGroup_rejects {hav bear : Q4} {fapPos thrPos : List (String × RefPt)}
    {g : Group} {nf nt : Nearest}
    (hf : find_nearest_point hav fapPos (enumIdx g.rows) = .ok nf)
    (ht : find_nearest_point hav thrPos (enumIdx g.rows) = .ok nt)
    (hbad : nf.runway ≠ nt.runway ∨ gtInf nf.distance 700 = true ∨
      gtInf nt.distance 700 = true) :
    processGroup hav bear fapPos thrPos g = .ok none := by
  unfold processGroup
  simp only [hf, ht]
  by_cases h1 : nf.runway ≠ nt.runway
  · rw [if_pos h1]
  · rw [if_neg h1]
    rcases hbad with hb | hb | hb
    · exact absurd hb h1
    · rw [if_pos hb]
    · by_cases h2 : gtInf nf.distance 700 = true
      · rw [if_pos h2]
      · rw [if_neg h2, if_pos hb]

/-! ## Inversion of the full run -/

theorem runGroups_mem {hav bear : Q4} {fapPos thrPos : List (String × RefPt)} :
    ∀ {gs : List Group} {trips : List Trip} {t : Trip},
      runGroups hav bear fapPos thrPos gs = .ok trips → t ∈ trips →
      ∃ g, g ∈ gs ∧ processGroup hav bear fapPos thrPos g = .ok (some t) := by
  intro gs
  induction gs with
  | nil =>
    intro trips t h ht
    simp only [runGroups] at h
    have := Except.ok.inj h
    rw [← this] at ht
    simp at ht
  | cons g2 gs2 ih =>
    intro trips t h ht
    simp only [runGroups] at h
    split at h
    · simp at h
    · rename_i o ho
      split at h
      · simp at h
      · rename_i rest hrest
        have hinj := Except.ok.inj h
        cases o with
        | none =>
          rw [← hinj] at ht
          obtain ⟨g3, hg3, hp3⟩ := ih hrest ht
          exact ⟨g3, List.mem_cons_of_mem g2 hg3, hp3⟩
        | some t2 =>
          rw [← hinj] at ht
          rcases List.mem_cons.mp ht with h1 | h1
          · exact ⟨g2, List.mem_cons_self g2 gs2, by rw [← h1] at ho; exact ho⟩
          · obtain ⟨g3, hg3, hp3⟩ := ih hrest h1
            exact ⟨g3, List.mem_cons_of_mem g2 hg3, hp3⟩

theorem identify_ok {hav bear : Q4} {fapPos thrPos : List (String × RefPt)}
    {groups : List Group} {augs : List AugGroup} {basics : List BasicInfo}
    {ilss : List (List (Nat × Row))}
    (h : identify_landing_runway hav bear fapPos thrPos groups = .ok (augs, basics, ilss)) :
    ∃ trips, runGroups hav bear fapPos thrPos (filterGroups groups) = .ok trips ∧
      trips ≠ [] ∧ augs = trips.map (fun t => t.1) ∧
      basics = trips.map (fun t => t.2.1) ∧ ilss = trips.map (fun t => t.2.2) := by
  unfold identify_landing_runway at h
  split at h
  · simp at h
  · rename_i trips htr
    by_cases he : trips.isEmpty
    · rw [if_pos he] at h; simp at h
    · rw [if_neg he] at h
      have hinj := Except.ok.inj h
      refine ⟨trips, htr, by simpa using he, ?_, ?_, ?_⟩
      · exact (congrArg Prod.fst hinj).symm
      · exact (congrArg (fun p => p.2.1) hinj).symm
      · exact (congrArg (fun p => p.2.2) hinj).symm

/-! ## Further helper lemmas -/

theorem gtInf_false {o : Option ℚ} {t : ℚ} (h : gtInf o t = false) :
    ∃ d, o = some d ∧ d ≤ t := by
  cases o with
  | none => simp [gtInf] at h
  | some d =>
    simp only [gtInf, decide_eq_false_iff_not, not_lt] at h
    exact ⟨d, rfl, h⟩

theorem insertLe_mem {le : α → α → Bool} {x y : α} :
    ∀ {l : List α}, y ∈ insertLe le x l ↔ y = x ∨ y ∈ l := by
  intro l
  induction l with
  | nil => simp [insertLe]
  | cons z zs ih =>
    simp only [insertLe]
    by_cases hz : le x z = true
    · simp [hz]
    · simp only [hz, Bool.false_eq_true, if_false, List.mem_cons, ih]
      tauto

theorem sortLe_mem {le : α → α → Bool} {y : α} :
    ∀ {l : List α}, y ∈ sortLe le l ↔ y ∈ l := by
  intro l
  induction l with
  | nil => simp [sortLe]
  | cons z zs ih =>
    simp only [sortLe, insertLe_mem, ih, List.mem_cons]

/-! ## Inversion of the backwards variant -/

theorem mkOutputsB_ok_some {hav : Q4} {g : Group} {nf nt : Nearest} {t : TripB}
    (h : mkOutputsB hav g nf nt = .ok (some t)) :
    ∃ idxF tsF rwyF idxT tsT rwyT rF rT latF lonF latT lonT,
      nf.index = some idxF ∧ nf.ts = some tsF ∧ nf.runway = some rwyF ∧
      nt.index = some idxT ∧ nt.ts = some tsT ∧ nt.runway = some rwyT ∧
      locRow (enumIdx g.rows) idxF = some rF ∧ locRow (enumIdx g.rows) idxT = some rT ∧
      rF.lat? = some latF ∧ rF.lon? = some lonF ∧
      rT.lat? = some latT ∧ rT.lon? = some lonT ∧
      t = buildRecordsB hav g idxF tsF rwyF idxT tsT rwyT latF lonF latT lonT
            idxF idxT := by
  unfold mkOutputsB at h
  split at h
  · rename_i idxF tsF rwyF idxT tsT rwyT e1 e2 e3 e4 e5 e6
    split at h
    · rename_i rF rT hrF hrT
      split at h
      · rename_i latF lonF latT lonT hlatF hlonF hlatT hlonT
        split at h
        · rename_i pF pT hpF hpT
          have hltF := (locRow_spec hrF).1
          have hltT := (locRow_spec hrT).1
          have hpFe : pF = idxF := by
            have hq := findIdxQ_enumIdx (l := g.rows) (i := idxF) hltF
            rw [hq] at hpF
            exact (Option.some.inj hpF).symm
          have hpTe : pT = idxT := by
            have hq := findIdxQ_enumIdx (l := g.rows) (i := idxT) hltT
            rw [hq] at hpT
            exact (Option.some.inj hpT).symm
          have hinj := Option.some.inj (Except.ok.inj h)
          refine ⟨idxF, tsF, rwyF, idxT, tsT, rwyT, rF, rT, latF, lonF, latT, lonT,
            e1, e2, e3, e4, e5, e6, hrF, hrT, hlatF, hlonF, hlatT, hlonT, ?_⟩
          rw [← hinj, hpFe, hpTe]
        · simp at h
      · simp at h
    · simp at h
  · simp at h

theorem processGroupB_ok_some {hav bear : Q4} {thrPos : List (String × RefPt)}
    {g : Group} {t : TripB}
    (h : processGroupB hav bear thrPos g = .ok (some t)) :
    ∃ nt nf, find_nearest_point hav thrPos (enumIdx g.rows) = .ok nt ∧
      find_last_no_turning_point bear (enumIdx g.rows) nt = .ok (some nf) ∧
      nf.runway = nt.runway ∧ gtInf nf.distance 700 = false ∧
      gtInf nt.distance 700 = false ∧ mkOutputsB hav g nf nt = .ok (some t) := by
  unfold processGroupB at h
  split at h
  · simp at h
  · rename_i nt ht
    split at h
    · simp at h
    · simp at h
    · rename_i nf hnf
      by_cases h1 : nf.runway ≠ nt.runway
      · rw [if_pos h1] at h; simp at h
      · rw [if_neg h1] at h
        by_cases h2 : gtInf nf.distance 700 = true
        · rw [if_pos h2] at h; simp at h
        · rw [if_neg h2] at h
          by_cases h3 : gtInf nt.distance 700 = true
          · rw [if_pos h3] at h; simp at h
          · rw [if_neg h3] at h
            exact ⟨nt, nf, ht, hnf, not_not.mp h1, by simpa using h2, by simpa using h3, h⟩

theorem flntp_spec {bear : Q4} {rows : List (Nat × Row)} {nthr : Nearest}
    {rwy : String} {thrPt : Row} {r0 : Nat × Row} {rest : List (Nat × Row)}
    (hrw : nthr.runway = some rwy) (hpt : nthr.point = some thrPt)
    (hrows : rows = r0 :: rest) :
    (withinRange bear (rwyHeading rwy) thrPt r0.2 = false →
      find_last_no_turning_point bear rows nthr = .ok none) ∧
    (withinRange bear (rwyHeading rwy) thrPt r0.2 = true →
      ∃ lastP, (rows.filter fun p =>
          withinRange bear (rwyHeading rwy) thrPt p.2).getLast? = some lastP ∧
        find_last_no_turning_point bear rows nthr =
          .ok (some { distance := some 0, runway := some rwy, point := some lastP.2,
                      base_lat := none, base_lon := none, index := some lastP.1,
                      ts := some lastP.2.ts })) := by
  subst hrows
  constructor
  · intro hfalse
    simp [find_last_no_turning_point, hrw, hpt, hfalse]
  · intro htrue
    have hne : ((r0 :: rest).filter fun p =>
        withinRange bear (rwyHeading rwy) thrPt p.2) ≠ [] := by
      simp [List.filter_cons, htrue]
    obtain ⟨lastP, hlast⟩ :=
      Option.isSome_iff_exists.mp (List.getLast?_isSome.mpr hne)
    have hlast2 := hlast
    simp only [List.filter_cons, htrue, if_pos] at hlast2
    refine ⟨lastP, hlast, ?_⟩
    simp [find_last_no_turning_point, hrw, hpt, htrue, hlast2]

/-! ## Claim theorems -/

/-- C5, counterexample: with a non-empty reference mapping, an empty report
set (either literally empty or empty after dropping the null-coordinate
rows) makes find_nearest_point raise the idxmin ValueError instead of
returning the "no match" sentinel. -/
theorem claim5_counterexample :
    find_nearest_point hav0 fap0 [] =
      .error "attempt to get argmin of an empty sequence" ∧
    find_nearest_point hav0 fap0 [(0, rowNull)] =
      .error "attempt to get argmin of an empty sequence" ∧
    dropnaCoords [(0, rowNull)] = [] := by
  refine ⟨?_, ?_, ?_⟩ <;> with_unfolding_all rfl

/-- C5, amended: find_nearest_point returns the sentinel dictionary with
distance +infinity only when the reference-point mapping itself is empty;
with a non-empty mapping and an empty (after null exclusion) report set it
raises the pandas error of idxmin on an empty series. -/
theorem claim5 :
    (∀ (hav : Q4) (rows : List (Nat × Row)),
      find_nearest_point hav [] rows = .ok emptyNearest ∧
        emptyNearest.distance = none) ∧
    (∀ (hav : Q4) (e : String × RefPt) (bs : List (String × RefPt))
      (rows : List (Nat × Row)), dropnaCoords rows = [] →
      find_nearest_point hav (e :: bs) rows =
        .error "attempt to get argmin of an empty sequence") := by
  constructor
  · intro hav rows
    exact ⟨rfl, rfl⟩
  · intro hav e bs rows hclean
    unfold find_nearest_point
    rw [hclean]
    rfl

/-- C5, witness for the amended claim at concrete inputs. -/
theorem claim5_witness :
    (find_nearest_point hav0 [] [(0, rowNull)] = .ok emptyNearest ∧
      emptyNearest.distance = none) ∧
    find_nearest_point hav0 [("18L", ⟨0, 0⟩)] [(0, rowNull)] =
      .error "attempt to get argmin of an empty sequence" :=
  ⟨claim5.1 hav0 [(0, rowNull)],
   claim5.2 hav0 ("18L", ⟨0, 0⟩) [] [(0, rowNull)] rfl⟩

/-- C7: evaluation at the failing input.  A run whose only landing segment is
geometrically rejected (FAP matches runway 18L, threshold matches runway
32R) does NOT return its three tables with the segment dropped: the final
pd.concat of the empty results list raises ValueError, so the run aborts on
bad geometry alone, contradicting the claim. -/
theorem claim7 :
    identify_landing_runway hav0 bear0 fapC thrC [gBad] =
      .error "No objects to concatenate" ∧
    (∃ nf nt, find_nearest_point hav0 fapC (enumIdx gBad.rows) = .ok nf ∧
      find_nearest_point hav0 thrC (enumIdx gBad.rows) = .ok nt ∧
      nf.runway = some "18L" ∧ nt.runway = some "32R") := by
  constructor
  · with_unfolding_all rfl
  · exact ⟨nfBad, ntBad, by with_unfolding_all rfl, by with_unfolding_all rfl,
      by with_unfolding_all rfl, by with_unfolding_all rfl⟩

/-- C3: on a non-empty reference mapping and a report set that is non-empty
after excluding null coordinates (with pandas-unique labels),
find_nearest_point returns a (runway, report) pair realising the global
minimum distance over all pairs, and every reference point listed before
the returned one is strictly farther from every report (first minimum in
mapping iteration order wins). -/
theorem claim3 (hav : Q4) (baseline : List (String × RefPt))
    (rows : List (Nat × Row)) (hb : baseline ≠ [])
    (hnd : (rows.map Prod.fst).Nodup) (hdf : dropnaCoords rows ≠ []) :
    ∃ n P1 e P2 c, find_nearest_point hav baseline rows = .ok n ∧
      baseline = P1 ++ e :: P2 ∧ c ∈ dropnaCoords rows ∧
      n.runway = some e.1 ∧ n.index = some c.idx ∧ n.point = some c.row ∧
      n.ts = some c.row.ts ∧ n.distance = some (distQ hav c e.2) ∧
      (∀ q ∈ baseline, ∀ c2 ∈ dropnaCoords rows,
        distQ hav c e.2 ≤ distQ hav c2 q.2) ∧
      (∀ q ∈ P1, ∀ c2 ∈ dropnaCoords rows,
        distQ hav c e.2 < distQ hav c2 q.2) := by
  obtain ⟨n, P1, e, P2, c, hok, hdec, hcmem, hneq, hstrict, hglob⟩ :=
    @fnp_min hav baseline rows hb (dropnaCoords_nodup hnd) hdf
  refine ⟨n, P1, e, P2, c, hok, hdec, hcmem, ?_, ?_, ?_, ?_, ?_, hglob, hstrict⟩
  · rw [hneq]; rfl
  · rw [hneq]; rfl
  · rw [hneq]; rfl
  · rw [hneq]; rfl
  · rw [hneq]; rfl

/-- C3, witness at a concrete mapping and report set. -/
theorem claim3_witness :
    ∃ n P1 e P2 c, find_nearest_point hav0 fap0 [(0, rowF)] = .ok n ∧
      fap0 = P1 ++ e :: P2 ∧ c ∈ dropnaCoords [(0, rowF)] ∧
      n.runway = some e.1 ∧ n.index = some c.idx ∧ n.point = some c.row ∧
      n.ts = some c.row.ts ∧ n.distance = some (distQ hav0 c e.2) ∧
      (∀ q ∈ fap0, ∀ c2 ∈ dropnaCoords [(0, rowF)],
        distQ hav0 c e.2 ≤ distQ hav0 c2 q.2) ∧
      (∀ q ∈ P1, ∀ c2 ∈ dropnaCoords [(0, rowF)],
        distQ hav0 c e.2 < distQ hav0 c2 q.2) :=
  claim3 hav0 fap0 [(0, rowF)] (by decide) (by decide) (by decide)

/-- C1: every basic_info record emitted by identify_landing_runway comes
from a group whose FAP match and threshold match agree on the runway and
are each at most 700 m from their reference point; and a group failing
either check is rejected outright (its loop body yields no record at
all). -/
theorem claim1 (hav bear : Q4) (fapPos thrPos : List (String × RefPt))
    (groups : List Group) (augs : List AugGroup) (basics : List BasicInfo)
    (ilss : List (List (Nat × Row)))
    (h : identify_landing_runway hav bear fapPos thrPos groups =
      .ok (augs, basics, ilss)) :
    (∀ b ∈ basics, ∃ g, g ∈ filterGroups groups ∧
      ∃ nf nt a ils dF dT,
        processGroup hav bear fapPos thrPos g = .ok (some (a, b, ils)) ∧
        find_nearest_point hav fapPos (enumIdx g.rows) = .ok nf ∧
        find_nearest_point hav thrPos (enumIdx g.rows) = .ok nt ∧
        nf.runway = nt.runway ∧ nf.runway = some b.runway_fap ∧
        nf.distance = some dF ∧ dF ≤ 700 ∧
        nt.distance = some dT ∧ dT ≤ 700) ∧
    (∀ g ∈ filterGroups groups, ∀ nf nt,
      find_nearest_point hav fapPos (enumIdx g.rows) = .ok nf →
      find_nearest_point hav thrPos (enumIdx g.rows) = .ok nt →
      (nf.runway ≠ nt.runway ∨ gtInf nf.distance 700 = true ∨
        gtInf nt.distance 700 = true) →
      processGroup hav bear fapPos thrPos g = .ok none) := by
  constructor
  · intro b hb
    obtain ⟨trips, htr, hne, haug, hbas, hils⟩ := identify_ok h
    rw [hbas] at hb
    obtain ⟨t, htmem, htb⟩ := List.mem_map.mp hb
    obtain ⟨g, hgmem, hp⟩ := runGroups_mem htr htmem
    obtain ⟨nf, nt, hf, ht2, hrwy, hdF, hdT, hmk⟩ := processGroup_ok_some hp
    obtain ⟨idxF, tsF, rwyF, blatF, blonF, idxT, tsT, rwyT, blatT, blonT,
      rF, rT, latF, lonF, latT, lonT, e1, e2, e3, e4, e5, e6, e7, e8, e9, e10,
      hrF, hrT, hlatF, hlonF, hlatT, hlonT, teq⟩ := mkOutputs_ok_some hmk
    obtain ⟨dF, hdFv, hdFle⟩ := gtInf_false hdF
    obtain ⟨dT, hdTv, hdTle⟩ := gtInf_false hdT
    refine ⟨g, hgmem, nf, nt, t.1, t.2.2, dF, dT, ?_, hf, ht2, hrwy, ?_,
      hdFv, hdFle, hdTv, hdTle⟩
    · rw [← htb]
      exact hp
    · rw [← htb, teq]
      exact e3
  · intro g hg nf nt hf ht2 hbad
    exact processGroup_rejects hf ht2 hbad

/-- C1, witness at a concrete accepted run. -/
theorem claim1_witness :
    (∀ b ∈ [basicGood], ∃ g, g ∈ filterGroups [g0] ∧
      ∃ nf nt a ils dF dT,
        processGroup hav0 bear0 fap0 thr0 g = .ok (some (a, b, ils)) ∧
        find_nearest_point hav0 fap0 (enumIdx g.rows) = .ok nf ∧
        find_nearest_point hav0 thr0 (enumIdx g.rows) = .ok nt ∧
        nf.runway = nt.runway ∧ nf.runway = some b.runway_fap ∧
        nf.distance = some dF ∧ dF ≤ 700 ∧
        nt.distance = some dT ∧ dT ≤ 700) ∧
    (∀ g ∈ filterGroups [g0], ∀ nf nt,
      find_nearest_point hav0 fap0 (enumIdx g.rows) = .ok nf →
      find_nearest_point hav0 thr0 (enumIdx g.rows) = .ok nt →
      (nf.runway ≠ nt.runway ∨ gtInf nf.distance 700 = true ∨
        gtInf nt.distance 700 = true) →
      processGroup hav0 bear0 fap0 thr0 g = .ok none) :=
  claim1 hav0 bear0 fap0 thr0 [g0] [augGood] [basicGood] [ilsGood]
    (by with_unfolding_all rfl)

/-- C2: every emitted basic_info record carries
distance_fap_to_thr = hav(FAP reference, threshold reference) for the
matched runway's registry entries, and
delta_time_fap_to_thr = delta_time times the scaling factor
true_distance / distance_raw (1 when distance_raw = 0); in particular a raw
distance of twice the true distance halves the elapsed time. -/
theorem claim2 (hav bear : Q4) (fapPos thrPos : List (String × RefPt))
    (g : Group) (a : AugGroup) (b : BasicInfo) (ils : List (Nat × Row))
    (h : processGroup hav bear fapPos thrPos g = .ok (some (a, b, ils))) :
    ∃ pF pT : RefPt, (b.runway_fap, pF) ∈ fapPos ∧ (b.runway_fap, pT) ∈ thrPos ∧
      b.distance_fap_to_thr = hav pF.latitude pF.longitude pT.latitude pT.longitude ∧
      b.delta_time = ((b.ts_thr - b.ts_fap : Int) : ℚ) / 1000 ∧
      b.delta_time_fap_to_thr =
        b.delta_time * (if b.distance ≠ 0 then b.distance_fap_to_thr / b.distance else 1) ∧
      (b.distance = 2 * b.distance_fap_to_thr → b.distance ≠ 0 →
        b.delta_time_fap_to_thr = b.delta_time * (1 / 2)) := by
  obtain ⟨nf, nt, hf, ht2, hrwy, hdF, hdT, hmk⟩ := processGroup_ok_some h
  obtain ⟨idxF, tsF, rwyF, blatF, blonF, idxT, tsT, rwyT, blatT, blonT,
    rF, rT, latF, lonF, latT, lonT, e1, e2, e3, e4, e5, e6, e7, e8, e9, e10,
    hrF, hrT, hlatF, hlonF, hlatT, hlonT, teq⟩ := mkOutputs_ok_some hmk
  have hbEq : b = (buildRecords hav bear g idxF tsF rwyF blatF blonF idxT tsT
      rwyT blatT blonT rF latF lonF latT lonT idxF idxT).2.1 :=
    congrArg (fun t => t.2.1) teq
  obtain ⟨pF, hpFmem, hpFlat, hpFlon⟩ := fnp_runway_base hf e3
  have hrwyT : rwyT = rwyF := by
    rw [e3, e8] at hrwy
    exact (Option.some.inj hrwy).symm
  obtain ⟨pT, hpTmem, hpTlat, hpTlon⟩ := fnp_runway_base ht2 e8
  rw [hrwyT] at hpTmem
  have hblatF : blatF = pF.latitude := by rw [e4] at hpFlat; exact Option.some.inj hpFlat
  have hblonF : blonF = pF.longitude := by rw [e5] at hpFlon; exact Option.some.inj hpFlon
  have hblatT : blatT = pT.latitude := by rw [e9] at hpTlat; exact Option.some.inj hpTlat
  have hblonT : blonT = pT.longitude := by rw [e10] at hpTlon; exact Option.some.inj hpTlon
  have hbrwy : b.runway_fap = rwyF := by rw [hbEq]; rfl
  have hbD : b.distance_fap_to_thr = hav blatF blonF blatT blonT := by rw [hbEq]; rfl
  have hbR : b.distance = hav latF lonF latT lonT := by rw [hbEq]; rfl
  have hbdt : b.delta_time = ((tsT - tsF : Int) : ℚ) / 1000 := by rw [hbEq]; rfl
  have hbsc : b.delta_time_fap_to_thr =
      b.delta_time * scalingOf b.distance_fap_to_thr b.distance := by
    rw [hbEq]; rfl
  refine ⟨pF, pT, by rw [hbrwy]; exact hpFmem, by rw [hbrwy]; exact hpTmem, ?_, ?_, ?_, ?_⟩
  · rw [hbD, hblatF, hblonF, hblatT, hblonT]
  · rw [hbEq]; rfl
  · rw [hbsc]; rfl
  · intro h2 hne
    have hD : b.distance_fap_to_thr ≠ 0 := by
      intro h0
      rw [h0, mul_zero] at h2
      exact hne h2
    rw [hbsc, scalingOf, if_pos hne, h2]
    have hhalf : b.distance_fap_to_thr / (2 * b.distance_fap_to_thr) = 1 / 2 := by
      rw [mul_comm, div_mul_eq_div_div, div_self hD]
    rw [hhalf]

/-- C2, witness at a concrete accepted group. -/
theorem claim2_witness :
    ∃ pF pT : RefPt, (basicGood.runway_fap, pF) ∈ fap0 ∧
      (basicGood.runway_fap, pT) ∈ thr0 ∧
      basicGood.distance_fap_to_thr =
        hav0 pF.latitude pF.longitude pT.latitude pT.longitude ∧
      basicGood.delta_time =
        ((basicGood.ts_thr - basicGood.ts_fap : Int) : ℚ) / 1000 ∧
      basicGood.delta_time_fap_to_thr = basicGood.delta_time *
        (if basicGood.distance ≠ 0 then
          basicGood.distance_fap_to_thr / basicGood.distance else 1) ∧
      (basicGood.distance = 2 * basicGood.distance_fap_to_thr →
        basicGood.distance ≠ 0 →
        basicGood.delta_time_fap_to_thr = basicGood.delta_time * (1 / 2)) :=
  claim2 hav0 bear0 fap0 thr0 g0 augGood basicGood ilsGood
    (by with_unfolding_all rfl)

/-- C9: the ILS slice of an accepted group is exactly the contiguous run of
rows from the lower to the higher of the two matched positions, both
endpoints included, whichever of the two reports comes first in time. -/
theorem claim9 (hav bear : Q4) (fapPos thrPos : List (String × RefPt))
    (g : Group) (a : AugGroup) (b : BasicInfo) (ils : List (Nat × Row))
    (h : processGroup hav bear fapPos thrPos g = .ok (some (a, b, ils))) :
    min b.idx_fap b.idx_thr < g.rows.length ∧
    max b.idx_fap b.idx_thr < g.rows.length ∧
    ils.length = max b.idx_fap b.idx_thr + 1 - min b.idx_fap b.idx_thr ∧
    ∀ j < ils.length,
      ils.get? j = (enumIdx g.rows).get? (min b.idx_fap b.idx_thr + j) := by
  obtain ⟨nf, nt, hf, ht2, hrwy, hdF, hdT, hmk⟩ := processGroup_ok_some h
  obtain ⟨idxF, tsF, rwyF, blatF, blonF, idxT, tsT, rwyT, blatT, blonT,
    rF, rT, latF, lonF, latT, lonT, e1, e2, e3, e4, e5, e6, e7, e8, e9, e10,
    hrF, hrT, hlatF, hlonF, hlatT, hlonT, teq⟩ := mkOutputs_ok_some hmk
  have hbF : b.idx_fap = idxF := congrArg (fun t => t.2.1.idx_fap) teq
  have hbT : b.idx_thr = idxT := congrArg (fun t => t.2.1.idx_thr) teq
  have hilsEq : ils = ilsSlice g idxF idxT := congrArg (fun t => t.2.2) teq
  have hltF : idxF < g.rows.length := (locRow_spec hrF).1
  have hltT : idxT < g.rows.length := (locRow_spec hrT).1
  have hlen : (ilsSlice g idxF idxT).length =
      max idxF idxT + 1 - min idxF idxT := by
    simp only [ilsSlice, List.length_take, List.length_drop, enumIdx_length]
    omega
  refine ⟨by rw [hbF, hbT]; omega, by rw [hbF, hbT]; omega, ?_, ?_⟩
  · rw [hbF, hbT, hilsEq, hlen]
  · intro j hj
    rw [hbF, hbT, hilsEq]
    rw [hilsEq, hlen] at hj
    have hjlt : j < max idxF idxT + 1 - min idxF idxT := hj
    simp only [ilsSlice]
    rw [List.get?_take hjlt, List.get?_drop]

/-- C9, witness at a concrete accepted group. -/
theorem claim9_witness :
    min basicGood.idx_fap basicGood.idx_thr < g0.rows.length ∧
    max basicGood.idx_fap basicGood.idx_thr < g0.rows.length ∧
    ilsGood.length = max basicGood.idx_fap basicGood.idx_thr + 1 -
      min basicGood.idx_fap basicGood.idx_thr ∧
    ∀ j < ilsGood.length, ilsGood.get? j =
      (enumIdx g0.rows).get? (min basicGood.idx_fap basicGood.idx_thr + j) :=
  claim9 hav0 bear0 fap0 thr0 g0 augGood basicGood ilsGood
    (by with_unfolding_all rfl)

/-- C10: delta_time of an emitted record is (threshold timestamp minus FAP
timestamp) / 1000 with no sign restriction, and the concrete run g0 (whose
nearest-to-threshold report precedes its nearest-to-FAP report) is accepted
and emits negative delta_time and delta_time_fap_to_thr. -/
theorem claim10 :
    (∀ (hav bear : Q4) (fapPos thrPos : List (String × RefPt)) (g : Group)
      (a : AugGroup) (b : BasicInfo) (ils : List (Nat × Row)),
      processGroup hav bear fapPos thrPos g = .ok (some (a, b, ils)) →
      b.delta_time = ((b.ts_thr - b.ts_fap : Int) : ℚ) / 1000) ∧
    (identify_landing_runway hav0 bear0 fap0 thr0 [g0] =
        .ok ([augGood], [basicGood], [ilsGood]) ∧
      basicGood.ts_thr < basicGood.ts_fap ∧ basicGood.delta_time < 0 ∧
      basicGood.delta_time_fap_to_thr < 0) := by
  constructor
  · intro hav bear fapPos thrPos g a b ils h
    obtain ⟨nf, nt, hf, ht2, hrwy, hdF, hdT, hmk⟩ := processGroup_ok_some h
    obtain ⟨idxF, tsF, rwyF, blatF, blonF, idxT, tsT, rwyT, blatT, blonT,
      rF, rT, latF, lonF, latT, lonT, e1, e2, e3, e4, e5, e6, e7, e8, e9, e10,
      hrF, hrT, hlatF, hlonF, hlatT, hlonT, teq⟩ := mkOutputs_ok_some hmk
    have hbEq : b = (buildRecords hav bear g idxF tsF rwyF blatF blonF idxT tsT
        rwyT blatT blonT rF latF lonF latT lonT idxF idxT).2.1 :=
      congrArg (fun t => t.2.1) teq
    rw [hbEq]; rfl
  · refine ⟨by with_unfolding_all rfl, by decide, ?_, ?_⟩
    · norm_num [basicGood]
    · norm_num [basicGood]

/-- C10, witness for the universal part at the concrete accepted group. -/
theorem claim10_witness :
    basicGood.delta_time =
      ((basicGood.ts_thr - basicGood.ts_fap : Int) : ℚ) / 1000 :=
  claim10.1 hav0 bear0 fap0 thr0 g0 augGood basicGood ilsGood
    (by with_unfolding_all rfl)

/-- C8: the FAP kinematics of an emitted record are computed from the report
immediately preceding the matched FAP report in time order
(speed = haversine(prev, fap)/dt, vertical speed = altitude difference/dt,
heading = bearing(prev, fap) with dt = (fap.ts - prev.ts)/1000); all three
are None when the FAP report is first in time order or dt is not positive;
and a group is rejected only for geometric reasons, never for degenerate
kinematics, so the record is still emitted in the None cases. -/
theorem claim8 (hav bear : Q4) (fapPos thrPos : List (String × RefPt))
    (g : Group) (hsymm : ∀ w x y z, hav w x y z = hav y z w x)
    (hclean : ∀ r ∈ g.rows, r.lat?.isSome ∧ r.lon?.isSome) :
    (∀ (a : AugGroup) (b : BasicInfo) (ils : List (Nat × Row)),
      processGroup hav bear fapPos thrPos g = .ok (some (a, b, ils)) →
      ∃ rF fp, locRow (enumIdx g.rows) b.idx_fap = some rF ∧
        findIdxQ (fun q => q.1 == b.idx_fap)
          (sortLe pairTsLe (enumIdx g.rows)) = some fp ∧
        (fp = 0 → b.speed_fap = none ∧ b.vertical_speed_fap = none ∧
          b.heading_fap = none) ∧
        (∀ k prev, fp = k + 1 →
          (sortLe pairTsLe (enumIdx g.rows)).get? k = some prev →
          (((b.ts_fap - prev.2.ts : Int) : ℚ) / 1000 ≤ 0 →
            b.speed_fap = none ∧ b.vertical_speed_fap = none ∧
              b.heading_fap = none) ∧
          (0 < ((b.ts_fap - prev.2.ts : Int) : ℚ) / 1000 →
            ∃ pl pn, prev.2.lat? = some pl ∧ prev.2.lon? = some pn ∧
              b.speed_fap = some (hav pl pn b.lat_deg_fap b.lon_deg_fap /
                (((b.ts_fap - prev.2.ts : Int) : ℚ) / 1000)) ∧
              b.vertical_speed_fap = some ((rF.altitude - prev.2.altitude) /
                (((b.ts_fap - prev.2.ts : Int) : ℚ) / 1000)) ∧
              b.heading_fap =
                some (bear pl pn b.lat_deg_fap b.lon_deg_fap)))) ∧
    (processGroup hav bear fapPos thrPos g = .ok none →
      ∃ nf nt, find_nearest_point hav fapPos (enumIdx g.rows) = .ok nf ∧
        find_nearest_point hav thrPos (enumIdx g.rows) = .ok nt ∧
        (nf.runway ≠ nt.runway ∨ gtInf nf.distance 700 = true ∨
          gtInf nt.distance 700 = true)) := by
  constructor
  · intro a b ils h
    obtain ⟨nf, nt, hf, ht2, hrwy, hdF, hdT, hmk⟩ := processGroup_ok_some h
    obtain ⟨idxF, tsF, rwyF, blatF, blonF, idxT, tsT, rwyT, blatT, blonT,
      rF, rT, latF, lonF, latT, lonT, e1, e2, e3, e4, e5, e6, e7, e8, e9, e10,
      hrF, hrT, hlatF, hlonF, hlatT, hlonT, teq⟩ := mkOutputs_ok_some hmk
    have hbF : b.idx_fap = idxF := congrArg (fun t => t.2.1.idx_fap) teq
    have hbts : b.ts_fap = tsF := congrArg (fun t => t.2.1.ts_fap) teq
    have hblat : b.lat_deg_fap = latF := congrArg (fun t => t.2.1.lat_deg_fap) teq
    have hblon : b.lon_deg_fap = lonF := congrArg (fun t => t.2.1.lon_deg_fap) teq
    have hbsp : b.speed_fap = (kinAt hav bear g idxF tsF rF latF lonF).1 :=
      congrArg (fun t => t.2.1.speed_fap) teq
    have hbvs : b.vertical_speed_fap =
        (kinAt hav bear g idxF tsF rF latF lonF).2.1 :=
      congrArg (fun t => t.2.1.vertical_speed_fap) teq
    have hbhd : b.heading_fap = (kinAt hav bear g idxF tsF rF latF lonF).2.2 :=
      congrArg (fun t => t.2.1.heading_fap) teq
    have hgetF : g.rows.get? idxF = some rF := (locRow_spec hrF).2
    have hmemE : (idxF, rF) ∈ enumIdx g.rows := by
      have hx := enumIdx_get? (l := g.rows) (k := idxF)
      rw [hgetF] at hx
      exact List.get?_mem hx
    have hmemS : (idxF, rF) ∈ sortLe pairTsLe (enumIdx g.rows) :=
      sortLe_mem.mpr hmemE
    obtain ⟨fp, hfp⟩ :=
      findIdxQ_succeeds (p := fun q => q.1 == idxF) hmemS (beq_self_eq_true idxF)
    refine ⟨rF, fp, by rw [hbF]; exact hrF, by rw [hbF]; exact hfp, ?_, ?_⟩
    · intro h0
      have hkin : kinAt hav bear g idxF tsF rF latF lonF = (none, none, none) := by
        simp only [kinAt, hfp]
        rw [if_pos h0]
      rw [hbsp, hbvs, hbhd, hkin]
      exact ⟨rfl, rfl, rfl⟩
    · intro k prev hfpk hget
      subst hfpk
      have hred : kinAt hav bear g idxF tsF rF latF lonF =
          (if 0 < ((tsF - prev.2.ts : Int) : ℚ) / 1000 then
            (some (hav latF lonF (prev.2.lat?.getD 0) (prev.2.lon?.getD 0) /
              (((tsF - prev.2.ts : Int) : ℚ) / 1000)),
             some ((rF.altitude - prev.2.altitude) /
              (((tsF - prev.2.ts : Int) : ℚ) / 1000)),
             some (bear (prev.2.lat?.getD 0) (prev.2.lon?.getD 0) latF lonF))
          else (none, none, none)) := by
        simp only [kinAt, hfp]
        rw [if_neg (Nat.succ_ne_zero k)]
        rw [show k + 1 - 1 = k from rfl]
        simp only [hget]
      constructor
      · intro hdtle
        rw [hbts] at hdtle
        have hne : ¬ 0 < ((tsF - prev.2.ts : Int) : ℚ) / 1000 := not_lt.mpr hdtle
        rw [hbsp, hbvs, hbhd, hred, if_neg hne]
        exact ⟨rfl, rfl, rfl⟩
      · intro hdtpos
        rw [hbts] at hdtpos
        have hprevmem : prev ∈ enumIdx g.rows := sortLe_mem.mp (List.get?_mem hget)
        obtain ⟨kk, hkk, hk1, hk2⟩ := enumFromIdx_mem hprevmem
        have hrowmem : prev.2 ∈ g.rows := List.get?_mem hk2
        obtain ⟨hplS, hpnS⟩ := hclean prev.2 hrowmem
        obtain ⟨pl, hpl⟩ := Option.isSome_iff_exists.mp hplS
        obtain ⟨pn, hpn⟩ := Option.isSome_iff_exists.mp hpnS
        refine ⟨pl, pn, hpl, hpn, ?_, ?_, ?_⟩
        · rw [hblat, hblon, hbts, hbsp, hred, if_pos hdtpos, hpl, hpn]
          simp only [Option.getD_some]
          rw [hsymm latF lonF pl pn]
        · rw [hbts, hbvs, hred, if_pos hdtpos]
        · rw [hblat, hblon, hbhd, hred, if_pos hdtpos, hpl, hpn]
          simp only [Option.getD_some]
  · intro h
    exact processGroup_ok_none h

/-- C8, witness at a concrete accepted group whose FAP report has a
predecessor in time order. -/
theorem claim8_witness :
    ∃ rF fp, locRow (enumIdx g0.rows) basicGood.idx_fap = some rF ∧
      findIdxQ (fun q => q.1 == basicGood.idx_fap)
        (sortLe pairTsLe (enumIdx g0.rows)) = some fp ∧
      (fp = 0 → basicGood.speed_fap = none ∧
        basicGood.vertical_speed_fap = none ∧ basicGood.heading_fap = none) ∧
      (∀ k prev, fp = k + 1 →
        (sortLe pairTsLe (enumIdx g0.rows)).get? k = some prev →
        (((basicGood.ts_fap - prev.2.ts : Int) : ℚ) / 1000 ≤ 0 →
          basicGood.speed_fap = none ∧ basicGood.vertical_speed_fap = none ∧
            basicGood.heading_fap = none) ∧
        (0 < ((basicGood.ts_fap - prev.2.ts : Int) : ℚ) / 1000 →
          ∃ pl pn, prev.2.lat? = some pl ∧ prev.2.lon? = some pn ∧
            basicGood.speed_fap =
              some (hav0 pl pn basicGood.lat_deg_fap basicGood.lon_deg_fap /
                (((basicGood.ts_fap - prev.2.ts : Int) : ℚ) / 1000)) ∧
            basicGood.vertical_speed_fap =
              some ((rF.altitude - prev.2.altitude) /
                (((basicGood.ts_fap - prev.2.ts : Int) : ℚ) / 1000)) ∧
            basicGood.heading_fap =
              some (bear0 pl pn basicGood.lat_deg_fap basicGood.lon_deg_fap))) :=
  (claim8 hav0 bear0 fap0 thr0 g0
      (by intro w x y z; simp only [hav0]; ring) (by decide)).1
    augGood basicGood ilsGood (by with_unfolding_all rfl)

theorem flntp_distance {bear : Q4} {rows : List (Nat × Row)} {nthr nf : Nearest}
    (h : find_last_no_turning_point bear rows nthr = .ok (some nf)) :
    nf.distance = some 0 := by
  unfold find_last_no_turning_point at h
  split at h
  · split at h
    · simp at h
    · split at h
      · simp at h
      · split at h
        · have hinj := Option.some.inj (Except.ok.inj h)
          rw [← hinj]
        · simp at h
  · simp at h

theorem assignSegs_chain {thr : ℚ} :
    ∀ (l : List (Row × ℚ)) (acc i : Nat) (a b : SegRow),
      (assignSegs thr acc l).get? i = some a →
      (assignSegs thr acc l).get? (i + 1) = some b →
      b.segment = if b.time_gap > thr then a.segment + 1 else a.segment := by
  intro l
  induction l with
  | nil => intro acc i a b ha hb; simp [assignSegs] at ha
  | cons rg rest ih =>
    intro acc i a b ha hb
    cases i with
    | zero =>
      simp only [assignSegs, List.get?_cons_zero, Option.some.injEq] at ha
      cases rest with
      | nil => simp [assignSegs] at hb
      | cons rg2 rest2 =>
        simp only [assignSegs, List.get?_cons_succ, List.get?_cons_zero,
          Option.some.injEq] at hb
        rw [← ha, ← hb]
    | succ i =>
      simp only [assignSegs, List.get?_cons_succ] at ha hb
      exact ih _ i a b ha hb

theorem identify_segments_head_gap {thr : ℚ} {rows : List Row} {x : SegRow}
    (hx : (identify_segments thr rows).1.get? 0 = some x) : x.time_gap = 0 := by
  simp only [identify_segments] at hx
  cases hs : sortLe rowTsLe rows with
  | nil =>
    rw [hs] at hx
    simp [annotateGaps, assignSegs] at hx
  | cons s0 srest =>
    rw [hs] at hx
    simp only [annotateGaps, assignSegs, List.get?_cons_zero,
      Option.some.injEq] at hx
    rw [← hx]

/-- C4, counterexample: the per-group time_gap column is not reset at
segment boundaries, so the lone report of a non-initial single-report
segment keeps its over-threshold gap.  Two reports 4000 s apart (threshold
3600 s) give a second segment containing exactly one report whose time_gap
is 4000, not 0, refuting the original claim's "time_gap 0" for
single-report segments. -/
theorem claim4_counterexample :
    (identify_segments 3600 [row4a, row4b]).1 =
      [⟨row4a, 0, 0⟩, ⟨row4b, 4000, 1⟩] ∧
    segRuns (identify_segments 3600 [row4a, row4b]).1 =
      [[⟨row4a, 0, 0⟩], [⟨row4b, 4000, 1⟩]] ∧
    (identify_segments 3600 [row4a, row4b]).2 =
      [⟨0, row4a.ts, row4a.ts, row4a.altitude, row4a.altitude, 0, "level"⟩,
       ⟨1, row4b.ts, row4b.ts, row4b.altitude, row4b.altitude, 0, "level"⟩] ∧
    (4000 : ℚ) ≠ 0 := by
  refine ⟨?_, ?_, ?_, by norm_num⟩
  · with_unfolding_all rfl
  · with_unfolding_all rfl
  · with_unfolding_all rfl

/-- C4, amended: identify_segments classifies every segment summary by the
sign of its net altitude change (positive departing, negative landing, zero
level), the summary altitudes being the first and last altitudes of the
segment's run of time-sorted annotated rows; a single-report segment always
has altitude change 0 and classifies "level", but its time_gap is 0 only
when its report is the aircraft's first: the first annotated row's gap is
0, and a later row opens a new segment exactly when its gap to the previous
report exceeds the threshold, so the lone report of a non-initial
single-report segment carries that over-threshold gap.  A group consisting
of a single report still yields time_gap 0 and "level". -/
theorem claim4 (thr : ℚ) (rows : List Row) :
    (∀ s ∈ (identify_segments thr rows).2,
      (∃ run, run ∈ segRuns (identify_segments thr rows).1 ∧
        ∃ x xs, run = x :: xs ∧ s = summaryOf x xs ∧
          s.start_altitude = x.row.altitude ∧
          s.end_altitude = (xs.getLastD x).row.altitude) ∧
      s.altitude_change = s.end_altitude - s.start_altitude ∧
      (0 < s.altitude_change → s.trajectory = "departing") ∧
      (s.altitude_change < 0 → s.trajectory = "landing") ∧
      (s.altitude_change = 0 → s.trajectory = "level")) ∧
    (∀ run x, run ∈ segRuns (identify_segments thr rows).1 → run = [x] →
      summaryOf x [] ∈ (identify_segments thr rows).2 ∧
      summaryOf x [] = ⟨x.segment, x.row.ts, x.row.ts, x.row.altitude,
        x.row.altitude, 0, "level"⟩) ∧
    (∀ x, (identify_segments thr rows).1.get? 0 = some x → x.time_gap = 0) ∧
    (∀ i a b, (identify_segments thr rows).1.get? i = some a →
      (identify_segments thr rows).1.get? (i + 1) = some b →
      b.segment = if b.time_gap > thr then a.segment + 1 else a.segment) ∧
    (∀ r : Row, rows = [r] → ∃ sid,
      (identify_segments thr rows).1 = [⟨r, 0, sid⟩] ∧
      (identify_segments thr rows).2 =
        [⟨sid, r.ts, r.ts, r.altitude, r.altitude, 0, "level"⟩]) := by
  refine ⟨?_, ?_, ?_, ?_, ?_⟩
  · intro s hs
    simp only [identify_segments] at hs
    obtain ⟨run, hrun, hf⟩ := List.mem_filterMap.mp hs
    cases run with
    | nil => simp at hf
    | cons x xs =>
      have hsummary : s = summaryOf x xs := (Option.some.inj hf).symm
      subst hsummary
      refine ⟨⟨x :: xs, hrun, x, xs, rfl, rfl, rfl, rfl⟩, rfl, ?_, ?_, ?_⟩
      · intro hpos
        simp only [summaryOf] at hpos ⊢
        split_ifs with h1 h2 <;> first | rfl | (exfalso; linarith)
      · intro hneg
        simp only [summaryOf] at hneg ⊢
        split_ifs with h1 h2 <;> first | rfl | (exfalso; linarith)
      · intro hzero
        simp only [summaryOf] at hzero ⊢
        split_ifs with h1 h2 <;> first | rfl | (exfalso; linarith)
  · intro run x hrun hx
    subst hx
    constructor
    · simp only [identify_segments] at hrun ⊢
      exact List.mem_filterMap.mpr ⟨[x], hrun, rfl⟩
    · simp [summaryOf]
  · intro x hx
    exact identify_segments_head_gap hx
  · intro i a b ha hb
    exact assignSegs_chain (annotateGaps (sortLe rowTsLe rows)) 0 i a b ha hb
  · intro r hr
    subst hr
    by_cases hthr : (0 : ℚ) > thr
    · refine ⟨1, ?_, ?_⟩
      · simp [identify_segments, sortLe, insertLe, annotateGaps, assignSegs, hthr]
      · simp [identify_segments, sortLe, insertLe, annotateGaps, assignSegs,
          hthr, segRuns, summaryOf]
    · refine ⟨0, ?_, ?_⟩
      · simp [identify_segments, sortLe, insertLe, annotateGaps, assignSegs, hthr]
      · simp [identify_segments, sortLe, insertLe, annotateGaps, assignSegs,
          hthr, segRuns, summaryOf]

/-- C4, witness for the amended claim: a single-report group, a two-report
descending group, and the non-initial single-report segment of the
4000 s-gap group. -/
theorem claim4_witness :
    (∃ sid, (identify_segments 3600 [rowF]).1 = [⟨rowF, 0, sid⟩] ∧
      (identify_segments 3600 [rowF]).2 =
        [⟨sid, rowF.ts, rowF.ts, rowF.altitude, rowF.altitude, 0, "level"⟩]) ∧
    (∀ s ∈ (identify_segments 3600 [rowF, rowT]).2,
      (∃ run, run ∈ segRuns (identify_segments 3600 [rowF, rowT]).1 ∧
        ∃ x xs, run = x :: xs ∧ s = summaryOf x xs ∧
          s.start_altitude = x.row.altitude ∧
          s.end_altitude = (xs.getLastD x).row.altitude) ∧
      s.altitude_change = s.end_altitude - s.start_altitude ∧
      (0 < s.altitude_change → s.trajectory = "departing") ∧
      (s.altitude_change < 0 → s.trajectory = "landing") ∧
      (s.altitude_change = 0 → s.trajectory = "level")) ∧
    (summaryOf ⟨row4b, 4000, 1⟩ [] ∈ (identify_segments 3600 [row4a, row4b]).2 ∧
      summaryOf ⟨row4b, 4000, 1⟩ [] = ⟨1, row4b.ts, row4b.ts, row4b.altitude,
        row4b.altitude, 0, "level"⟩) :=
  ⟨(claim4 3600 [rowF]).2.2.2.2 rowF rfl, (claim4 3600 [rowF, rowT]).1,
   (claim4 3600 [row4a, row4b]).2.1 [⟨row4b, 4000, 1⟩] ⟨row4b, 4000, 1⟩
     (by
       have hsr : segRuns (identify_segments 3600 [row4a, row4b]).1 =
           [[⟨row4a, 0, 0⟩], [⟨row4b, 4000, 1⟩]] := by with_unfolding_all rfl
       rw [hsr]
       simp) rfl⟩

/-- C6, counterexample: an input on which the backward-looking variant does
NOT select the last report whose bearing is within 10 degrees of the runway
heading: the first report is out of range, so `within_range.unique()[0]` is
False and the whole segment is rejected (None), although an in-range report
(the last one) exists. -/
theorem claim6_counterexample :
    find_last_no_turning_point bear0 [(0, row6a), (1, row6b)] nthr6 = .ok none ∧
    (([(0, row6a), (1, row6b)] : List (Nat × Row)).filter fun p =>
      withinRange bear0 (rwyHeading "32L") thrRow6 p.2).getLast? =
        some (1, row6b) ∧
    nthr6.runway = some "32L" ∧ nthr6.point = some thrRow6 := by
  refine ⟨?_, ?_, ?_, ?_⟩
  · with_unfolding_all rfl
  · with_unfolding_all rfl
  · with_unfolding_all rfl
  · with_unfolding_all rfl

/-- C6, amended: the variant selects the last in-range report as FAP only
when the segment's FIRST report is itself within 10 degrees of the nominal
heading (the code inspects only unique()[0]); otherwise the segment is
rejected.  Accepted groups satisfy the runway-agreement and
threshold-distance (at most 700 m) checks, the FAP match distance is the
literal 0 stored by the heuristic (so the FAP distance check never
rejects), and the record carries delta_time = (ts_thr - ts_fap)/1000 but a
reduced field set compared with the primary variant. -/
theorem claim6 :
    (∀ (bear : Q4) (rows : List (Nat × Row)) (nthr : Nearest) (rwy : String)
      (thrPt : Row) (r0 : Nat × Row) (rest : List (Nat × Row)),
      nthr.runway = some rwy → nthr.point = some thrPt → rows = r0 :: rest →
      (withinRange bear (rwyHeading rwy) thrPt r0.2 = false →
        find_last_no_turning_point bear rows nthr = .ok none) ∧
      (withinRange bear (rwyHeading rwy) thrPt r0.2 = true →
        ∃ lastP, (rows.filter fun p =>
            withinRange bear (rwyHeading rwy) thrPt p.2).getLast? = some lastP ∧
          find_last_no_turning_point bear rows nthr =
            .ok (some { distance := some 0, runway := some rwy,
                        point := some lastP.2, base_lat := none,
                        base_lon := none, index := some lastP.1,
                        ts := some lastP.2.ts }))) ∧
    (∀ (hav bear : Q4) (thrPos : List (String × RefPt)) (g : Group)
      (a : AugGroupB) (b : BasicInfoB) (ils : List (Nat × Row)),
      processGroupB hav bear thrPos g = .ok (some (a, b, ils)) →
      ∃ nt nf, find_nearest_point hav thrPos (enumIdx g.rows) = .ok nt ∧
        find_last_no_turning_point bear (enumIdx g.rows) nt = .ok (some nf) ∧
        nf.runway = nt.runway ∧ nf.distance = some 0 ∧
        (∃ dT, nt.distance = some dT ∧ dT ≤ 700) ∧
        b.delta_time = ((b.ts_thr - b.ts_fap : Int) : ℚ) / 1000) := by
  constructor
  · intro bear rows nthr rwy thrPt r0 rest hrw hpt hrows
    exact flntp_spec hrw hpt hrows
  · intro hav bear thrPos g a b ils h
    obtain ⟨nt, nf, ht, hnf, hrwy, hdF, hdT, hmk⟩ := processGroupB_ok_some h
    obtain ⟨idxF, tsF, rwyF, idxT, tsT, rwyT, rF, rT, latF, lonF, latT, lonT,
      e1, e2, e3, e4, e5, e6, hrF, hrT, hlatF, hlonF, hlatT, hlonT, teq⟩ :=
      mkOutputsB_ok_some hmk
    obtain ⟨dT, hdTv, hdTle⟩ := gtInf_false hdT
    refine ⟨nt, nf, ht, hnf, hrwy, flntp_distance hnf, ⟨dT, hdTv, hdTle⟩, ?_⟩
    have hbEq : b = (buildRecordsB hav g idxF tsF rwyF idxT tsT rwyT
        latF lonF latT lonT idxF idxT).2.1 :=
      congrArg (fun t => t.2.1) teq
    rw [hbEq]; rfl

/-- C6, witness: the amended claim instantiated at a first-report-in-range
group (FAP = last in-range report) and at a concrete accepted run of the
backwards variant. -/
theorem claim6_witness :
    ((withinRange bear0 (rwyHeading "32L") thrRow6 (0, row6a).2 = false →
        find_last_no_turning_point bear0 [(0, row6a), (1, row6b)] nthr6 =
          .ok none) ∧
      (withinRange bear0 (rwyHeading "32L") thrRow6 (0, row6a).2 = true →
        ∃ lastP, (([(0, row6a), (1, row6b)] : List (Nat × Row)).filter fun p =>
            withinRange bear0 (rwyHeading "32L") thrRow6 p.2).getLast? =
              some lastP ∧
          find_last_no_turning_point bear0 [(0, row6a), (1, row6b)] nthr6 =
            .ok (some { distance := some 0, runway := some "32L",
                        point := some lastP.2, base_lat := none,
                        base_lon := none, index := some lastP.1,
                        ts := some lastP.2.ts }))) ∧
    (∃ nt nf, find_nearest_point hav0 thrB (enumIdx gB.rows) = .ok nt ∧
      find_last_no_turning_point bear0 (enumIdx gB.rows) nt = .ok (some nf) ∧
      nf.runway = nt.runway ∧ nf.distance = some 0 ∧
      (∃ dT, nt.distance = some dT ∧ dT ≤ 700) ∧
      basicB.delta_time =
        ((basicB.ts_thr - basicB.ts_fap : Int) : ℚ) / 1000) :=
  ⟨claim6.1 bear0 [(0, row6a), (1, row6b)] nthr6 "32L" thrRow6 (0, row6a)
      [(1, row6b)] rfl rfl rfl,
   claim6.2 hav0 bear0 thrB gB augB basicB ilsB (by with_unfolding_all rfl)⟩

end Engage
